import Mathlib

/-!
The settings manager of BlockTheSpot.

A shallow embedding of `src/src/SettingsManager.cpp` and the properties of its
validation, loading, remote synchronisation, polling and config-file code.

Conventions of the embedding.

* `std::wstring` is `String`; where the code searches inside a line the text is
  handled as its list of characters.
* The static data members of `SettingsManager` are the fields of the structure
  `SettingsManager`; every operation takes the state before the call and returns
  the state after it.
* The collaborators that the file only calls (`Utils::ReadFile`,
  `Utils::WriteFile`, `Utils::HttpGetRequest`, `MessageBoxW`, `Logger`) are
  inputs of the operation (what the collaborator answers) and events of its trace
  (what the operation asked of it).
* A C++ exception is the outcome `Outcome.raised`; a function that can throw
  while reading a document returns `Option`, with `none` for the throw.
-/

namespace BlockTheSpot

/-! ## The JSON value type -/

/-- Modelled from the spec: the class `Json` is declared in a header that is not
part of the sources at hand.  The spec calls a settings document a structured
tree of named values with strings, ordered sequences, structured objects and
integers; the constructors below are those shapes together with `null` (the
value a default argument `nullptr` builds) and booleans.  An object is the list
of its entries, looked up by the first entry that carries the key. -/
inductive Json where
  | null
  | bool (b : Bool)
  | integer (i : Int)
  | string (s : String)
  | array (xs : List Json)
  | object (kvs : List (String × Json))
  deriving Repr, Inhabited

/-! ## Association lists (entries of an object, flags of the static config) -/

namespace Assoc

/-- First value stored under key `k`, if any. -/
def find {α : Type} (k : String) : List (String × α) → Option α
  | [] => none
  | (l, v) :: rest => if l = k then some v else find k rest

/-- Assignment through `operator[]`: replaces the value of the first entry with
key `k`, or adds the entry when the key is absent. -/
def set {α : Type} (k : String) (v : α) : List (String × α) → List (String × α)
  | [] => [(k, v)]
  | (l, w) :: rest => if l = k then (l, v) :: rest else (l, w) :: set k v rest

/-- All entries except those with key `k`. -/
def erase {α : Type} (k : String) : List (String × α) → List (String × α)
  | [] => []
  | (l, v) :: rest => if l = k then erase k rest else (l, v) :: erase k rest

end Assoc

namespace Json

mutual
/-- Deep equality, the `operator==` of two documents. -/
def beq (a b : Json) : Bool :=
  match a, b with
  | object kvs, object kws => sameFields kvs kws
  | array vs, array ws => sameElements vs ws
  | string s, string t => decide (s = t)
  | integer i, integer j => decide (i = j)
  | bool p, bool q => decide (p = q)
  | null, null => true
  | _, _ => false
/-- Deep equality of two sequences, element by element, in order. -/
def sameElements (vs ws : List Json) : Bool :=
  match vs, ws with
  | v :: vs, w :: ws => beq v w && sameElements vs ws
  | [], [] => true
  | _, _ => false
/-- Deep equality of two entry lists, entry by entry. -/
def sameFields (kvs kws : List (String × Json)) : Bool :=
  match kvs, kws with
  | (k, v) :: kvs, (l, w) :: kws => decide (k = l) && beq v w && sameFields kvs kws
  | [], [] => true
  | _, _ => false
end

/-- The test `is_object()`. -/
def is_object : Json → Bool
  | object _ => true
  | _ => false

/-- The test `is_array()`. -/
def is_array : Json → Bool
  | array _ => true
  | _ => false

/-- The test `is_string()`. -/
def is_string : Json → Bool
  | string _ => true
  | _ => false

/-- The test `settings == nullptr`. -/
def is_null : Json → Bool
  | null => true
  | _ => false

/-- The test `empty()`: a container without elements, or `null`. -/
def empty : Json → Bool
  | null => true
  | array xs => xs.isEmpty
  | object kvs => kvs.isEmpty
  | _ => false

/-- The test `contains(key)`: an object that has an entry for the key. -/
def contains (j : Json) (k : String) : Bool :=
  match j with
  | object kvs => (Assoc.find k kvs).isSome
  | _ => false

/-- The checked access `at(key)`, named `at_` because `at` is a keyword here;
`none` is the exception thrown for a value that is not an object or an object
without the key (the code reads documents through `at` inside `try` blocks for
that reason). -/
def at_ (j : Json) (k : String) : Option Json :=
  match j with
  | object kvs => Assoc.find k kvs
  | _ => none

/-- The conversion `get_string()`; `none` is the exception for a non-string. -/
def get_string : Json → Option String
  | string s => some s
  | _ => none

/-- The conversion `get_integer()`; `none` is the exception for a non-integer. -/
def get_integer : Json → Option Int
  | integer i => some i
  | _ => none

/-- The count `size()`: number of elements of a sequence or entries of an
object, zero for the other shapes. -/
def size : Json → Nat
  | array xs => xs.length
  | object kvs => kvs.length
  | _ => 0

/-- The indexed access `operator[](size_t)`; `none` is the exception for a value
that is not a sequence or an index out of range. -/
def idx (j : Json) (i : Nat) : Option Json :=
  match j with
  | array xs => xs.get? i
  | _ => none

/-- The document with every entry for key `k` removed (a test helper of the
spec, not an operation of the code). -/
def withoutField (j : Json) (k : String) : Json :=
  match j with
  | object kvs => object (Assoc.erase k kvs)
  | other => other

end Json

/-! ## Validation -/

/-- Messages handed to the logger, file writes, HTTP requests and prompts, in the
order the code issues them. -/
inductive Event where
  | logError (msg : String)
  | logInfo (msg : String)
  | writeFile (path : String) (text : String)
  | httpGet (url : String)
  | messageBox
  deriving Repr, DecidableEq

/-- The function `SettingsManager::ValidateSettings`, with the error it logs. -/
def ValidateSettingsLog (settings : Json) : Bool × List Event :=
  if settings.empty || !settings.is_object then
    (false, [Event.logError "Settings are empty or not an object."])
  else if !settings.contains "Latest Release Date" ||
      !((settings.at_ "Latest Release Date").any Json.is_string) then
    (false, [Event.logError "Missing or invalid 'Latest Release Date' setting."])
  else if !settings.contains "Block List" ||
      !((settings.at_ "Block List").any Json.is_array) then
    (false, [Event.logError "Missing or invalid 'Block List' setting."])
  else if !settings.contains "Zip Reader" ||
      !((settings.at_ "Zip Reader").any Json.is_object) then
    (false, [Event.logError "Missing or invalid 'Zip Reader' setting."])
  else if !settings.contains "Developer" ||
      !((settings.at_ "Developer").any Json.is_object) then
    (false, [Event.logError "Missing or invalid 'Developer' setting."])
  else if !settings.contains "Cef Offsets" ||
      !((settings.at_ "Cef Offsets").any Json.is_object) then
    (false, [Event.logError "Missing or invalid 'Cef Offsets' setting."])
  else
    (true, [])

/-- The boolean result of `SettingsManager::ValidateSettings`. -/
def ValidateSettings (settings : Json) : Bool :=
  (ValidateSettingsLog settings).1

/-- The five required top-level fields. -/
def requiredFields : List String :=
  ["Latest Release Date", "Block List", "Zip Reader", "Developer", "Cef Offsets"]

/-- The shape the spec requires of a settings document. -/
def WellShaped (d : Json) : Prop :=
  d.is_object = true ∧ d.empty = false ∧
  (∃ v, d.at_ "Latest Release Date" = some v ∧ v.is_string = true) ∧
  (∃ v, d.at_ "Block List" = some v ∧ v.is_array = true) ∧
  (∃ v, d.at_ "Zip Reader" = some v ∧ v.is_object = true) ∧
  (∃ v, d.at_ "Developer" = some v ∧ v.is_object = true) ∧
  (∃ v, d.at_ "Cef Offsets" = some v ∧ v.is_object = true)

/-! ## State, collaborators and outcomes -/

/-- The static data members of `SettingsManager` (lines 258-271) and the static
local `update_done` of `Update` (line 126). -/
structure SettingsManager where
  m_block_list : List String
  m_zip_reader : Json
  m_developer : Json
  m_cef_offsets : Json
  m_app_settings : Json
  m_latest_release_date : String
  m_app_settings_file : String
  m_settings_changed : Bool
  m_config : List (String × Bool)
  m_cef_request_t_get_url_offset : Int
  m_cef_zip_reader_t_get_file_name_offset : Int
  m_cef_zip_reader_t_read_file_offset : Int
  update_done : Bool
  deriving Repr

/-- The state of a fresh process: statics are zero-initialised. -/
def SettingsManager.initial : SettingsManager where
  m_block_list := []
  m_zip_reader := Json.null
  m_developer := Json.null
  m_cef_offsets := Json.null
  m_app_settings := Json.null
  m_latest_release_date := ""
  m_app_settings_file := ""
  m_settings_changed := false
  m_config := []
  m_cef_request_t_get_url_offset := 0
  m_cef_zip_reader_t_get_file_name_offset := 0
  m_cef_zip_reader_t_read_file_offset := 0
  update_done := false

/-- How a call ends: it returns a value, or an exception leaves it. -/
inductive Outcome (α : Type) where
  | ret (v : α)
  | raised
  deriving Repr, DecidableEq

/-- A finished call: how it ended, the state it left and what it asked of its
collaborators, in order. -/
structure Run (α : Type) where
  out : Outcome α
  state : SettingsManager
  events : List Event

/-- The JSON text functions `Json::parse` and `Json::dump`, which the sources at
hand only call; `parse` answers `none` when it throws on malformed text. -/
structure Codec where
  parse : String → Option Json
  dump : Json → Nat → String

/-- The address `UpdateSettingsFromServer` fetches. -/
def settingsUrl : String :=
  "https://raw.githubusercontent.com/mrpond/BlockTheSpot/master/blockthespot_settings.json"

/-! ## Load -/

/-- The loop of lines 81-83 run from index `i` for `n` more rounds with
`m_block_list = acc`: the block list when the loop ends or is left by an
exception, and whether it ended normally. -/
def pushBlockList (block_list_json : Json) : Nat → Nat → List String → List String × Bool
  | 0, _, acc => (acc, true)
  | n + 1, i, acc =>
    match (block_list_json.idx i).bind Json.get_string with
    | some str => pushBlockList block_list_json n (i + 1) (acc ++ [str])
    | none => (acc, false)

/-- The handler of lines 89-92. -/
def retrieveFailed (s : SettingsManager) (evs : List Event) : Run Bool :=
  ⟨Outcome.ret false, s,
    evs ++ [Event.logError "Failed to retrieve settings from JSON. Error: \x7b\x7d"]⟩

/-- Lines 94-99 of `Load`: the derived offsets are read from the entry `x64` of
the cached `Cef Offsets` when one of them is still zero; these reads are outside
every `try` block. -/
def deriveOffsets (s : SettingsManager) (evs : List Event) : Run Bool :=
  if s.m_cef_request_t_get_url_offset = 0 ∨ s.m_cef_zip_reader_t_get_file_name_offset = 0 ∨
      s.m_cef_zip_reader_t_read_file_offset = 0 then
    match ((s.m_cef_offsets.at_ "x64").bind
        (fun a => a.at_ "cef_request_t_get_url")).bind Json.get_integer with
    | none => ⟨Outcome.raised, s, evs⟩
    | some o1 =>
      let s1 := { s with m_cef_request_t_get_url_offset := o1 }
      match ((s1.m_cef_offsets.at_ "x64").bind
          (fun a => a.at_ "cef_zip_reader_t_get_file_name")).bind Json.get_integer with
      | none => ⟨Outcome.raised, s1, evs⟩
      | some o2 =>
        let s2 := { s1 with m_cef_zip_reader_t_get_file_name_offset := o2 }
        match ((s2.m_cef_offsets.at_ "x64").bind
            (fun a => a.at_ "cef_zip_reader_t_read_file")).bind Json.get_integer with
        | none => ⟨Outcome.raised, s2, evs⟩
        | some o3 =>
          ⟨Outcome.ret true, { s2 with m_cef_zip_reader_t_read_file_offset := o3 }, evs⟩
  else
    ⟨Outcome.ret true, s, evs⟩

/-- Lines 75-99 of `Load`: the cached fields are filled from `m_app_settings`
one after the other inside the `try` block, then the offsets are derived. -/
def populate (s : SettingsManager) (evs : List Event) : Run Bool :=
  match (s.m_app_settings.at_ "Latest Release Date").bind Json.get_string with
  | none => retrieveFailed s evs
  | some date =>
    let s1 := { s with m_latest_release_date := date }
    match s1.m_app_settings.at_ "Block List" with
    | none => retrieveFailed s1 evs
    | some block_list_json =>
      let pushed := pushBlockList block_list_json block_list_json.size 0 []
      let s2 := { s1 with m_block_list := pushed.1 }
      if pushed.2 = false then retrieveFailed s2 evs
      else
        match s2.m_app_settings.at_ "Zip Reader" with
        | none => retrieveFailed s2 evs
        | some zip =>
          let s3 := { s2 with m_zip_reader := zip }
          match s3.m_app_settings.at_ "Developer" with
          | none => retrieveFailed s3 evs
          | some dev =>
            let s4 := { s3 with m_developer := dev }
            match s4.m_app_settings.at_ "Cef Offsets" with
            | none => retrieveFailed s4 evs
            | some cef => deriveOffsets { s4 with m_cef_offsets := cef } evs

/-- The function `SettingsManager::Load`.  `file` is the answer of
`Utils::ReadFile` (`none` when it returns false, otherwise the text read); it
is consulted only when `settings` is null. -/
def Load (c : Codec) (file : Option String) (settings : Json) (s : SettingsManager) :
    Run Bool :=
  if settings.is_null then
    match file with
    | none =>
      ⟨Outcome.ret false, s, [Event.logError "Failed to read settings file: \x7b\x7d"]⟩
    | some buffer =>
      match c.parse buffer with
      | none =>
        ⟨Outcome.ret false, s,
          [Event.logError "Failed to parse settings file: \x7b\x7d. Error: \x7b\x7d"]⟩
      | some doc =>
        let s1 := { s with m_app_settings := doc }
        if (ValidateSettingsLog doc).1 = false then
          ⟨Outcome.ret false, s1, (ValidateSettingsLog doc).2 ++
            [Event.logError "Settings validation failed after loading from file."]⟩
        else populate s1 []
  else
    populate { s with m_app_settings := settings } []

/-! ## Remote synchronisation -/

/-- The function `SettingsManager::CompareSettings`. -/
def CompareSettings (current_settings reference_settings : Json) : Bool :=
  current_settings.beq reference_settings

/-- The handler of lines 178-181. -/
def syncCaught (s : SettingsManager) (evs : List Event) : Run Bool :=
  ⟨Outcome.ret false, s,
    evs ++ [Event.logError "Error updating settings from server: \x7b\x7d"]⟩

/-- The local `forced_update` of line 150. -/
def forcedUpdate (s : SettingsManager) (server_release_date : String) : Bool :=
  s.m_latest_release_date != server_release_date

/-- The function `SettingsManager::UpdateSettingsFromServer`.  `http` is the
answer of `Utils::HttpGetRequest` (`none` when it throws), `writeOk` the answer
of `Utils::WriteFile`, `promptYes` whether `MessageBoxW` returns `IDYES`.

Modelled from the spec: the call `CompareSettings(server_settings)` leaves out
the second argument, whose default is declared in the absent header; the spec
has the remote document compared against the full current in-memory document,
so the default is `m_app_settings`. -/
def UpdateSettingsFromServer (c : Codec) (http : Option String) (writeOk promptYes : Bool)
    (s : SettingsManager) : Run Bool :=
  let evs0 := [Event.httpGet settingsUrl]
  match http with
  | none => syncCaught s evs0
  | some server_settings_string =>
    match c.parse server_settings_string with
    | none => syncCaught s evs0
    | some server_settings =>
      if (ValidateSettingsLog server_settings).1 = false then
        ⟨Outcome.ret false, s, evs0 ++ (ValidateSettingsLog server_settings).2 ++
          [Event.logError "Server settings validation failed."]⟩
      else if CompareSettings server_settings s.m_app_settings = false then
        match (server_settings.at_ "Latest Release Date").bind Json.get_string with
        | none => syncCaught s evs0
        | some server_release_date =>
          let forced_update := forcedUpdate s server_release_date
          let loaded := Load c none server_settings s
          let failed := Event.logError
            "Failed to load server settings or write to the settings file: \x7b\x7d"
          match loaded.out with
          | Outcome.raised => syncCaught loaded.state (evs0 ++ loaded.events)
          | Outcome.ret false =>
            ⟨Outcome.ret false, loaded.state, evs0 ++ loaded.events ++ [failed]⟩
          | Outcome.ret true =>
            let written := Event.writeFile loaded.state.m_app_settings_file
              (c.dump server_settings 2)
            if writeOk = false then
              ⟨Outcome.ret false, loaded.state, evs0 ++ loaded.events ++ [written, failed]⟩
            else
              let s1 := { loaded.state with m_latest_release_date := server_release_date }
              let evs1 := evs0 ++ loaded.events ++
                [written, Event.logInfo "Settings updated from server."]
              if forced_update then
                if promptYes then
                  ⟨Outcome.ret true, s1, evs1 ++ [Event.messageBox, Event.logInfo
                    "Update requested by user.  Implement ZIP download/extraction here."]⟩
                else
                  ⟨Outcome.ret true, s1, evs1 ++ [Event.messageBox]⟩
              else
                ⟨Outcome.ret true, s1, evs1⟩
      else
        ⟨Outcome.ret true, s, evs0⟩

/-! ## The poll tick of `Update` -/

/-- The assignment `doc.at(key) = v`: `none` is the exception of `at` for a
missing key or a value that is not an object. -/
def Json.assignAt (j : Json) (k : String) (v : Json) : Option Json :=
  match j with
  | Json.object kvs =>
    if (Assoc.find k kvs).isSome then some (Json.object (Assoc.set k v kvs)) else none
  | _ => none

/-- The document value built from a `std::vector<std::wstring>`. -/
def jsonOfBlockList (l : List String) : Json :=
  Json.array (l.map Json.string)

/-- One operand `doc.at(key) != cached` of lines 107-111; `none` when `at`
throws. -/
def fieldDiffers (doc : Json) (k : String) (cached : Json) : Option Bool :=
  (doc.at_ k).map (fun v => !(v.beq cached))

/-- The short-circuit `a || b` of two operands that may throw: `b` is looked at
only when `a` is false. -/
def orThen (a b : Option Bool) : Option Bool :=
  match a with
  | none => none
  | some true => some true
  | some false => b

/-- The value assigned to `m_settings_changed` in lines 106-111; `none` when an
`at` that is evaluated throws. -/
def driftChanged (s : SettingsManager) : Option Bool :=
  orThen (fieldDiffers s.m_app_settings "Latest Release Date"
      (Json.string s.m_latest_release_date))
    (orThen (fieldDiffers s.m_app_settings "Block List" (jsonOfBlockList s.m_block_list))
      (orThen (fieldDiffers s.m_app_settings "Zip Reader" s.m_zip_reader)
        (orThen (fieldDiffers s.m_app_settings "Developer" s.m_developer)
          (fieldDiffers s.m_app_settings "Cef Offsets" s.m_cef_offsets))))

/-- Lines 114-118: the five fields of the document are overwritten with the
cached values, one after the other; the flag is false when an `at` throws, with
the state as the assignments before it left it. -/
def storeCached (s : SettingsManager) : SettingsManager × Bool :=
  match s.m_app_settings.assignAt "Latest Release Date" (Json.string s.m_latest_release_date) with
  | none => (s, false)
  | some d1 =>
    match d1.assignAt "Block List" (jsonOfBlockList s.m_block_list) with
    | none => ({ s with m_app_settings := d1 }, false)
    | some d2 =>
      match d2.assignAt "Zip Reader" s.m_zip_reader with
      | none => ({ s with m_app_settings := d2 }, false)
      | some d3 =>
        match d3.assignAt "Developer" s.m_developer with
        | none => ({ s with m_app_settings := d3 }, false)
        | some d4 =>
          match d4.assignAt "Cef Offsets" s.m_cef_offsets with
          | none => ({ s with m_app_settings := d4 }, false)
          | some d5 => ({ s with m_app_settings := d5 }, true)

/-- What the collaborators answer during one tick: `Utils::WriteFile` in the
drift step, `Logger::HasError`, and the three answers a remote sync consumes. -/
structure TickInput where
  driftWriteOk : Bool
  hasError : Bool
  http : Option String
  syncWriteOk : Bool
  promptYes : Bool

/-- Lines 106-123: the local drift step of one tick. -/
def driftStep (c : Codec) (driftWriteOk : Bool) (s : SettingsManager) : Run Unit :=
  match driftChanged s with
  | none => ⟨Outcome.raised, s, []⟩
  | some changed =>
    let s1 := { s with m_settings_changed := changed }
    if changed then
      match storeCached s1 with
      | (s2, false) => ⟨Outcome.raised, s2, []⟩
      | (s2, true) =>
        let written := Event.writeFile s2.m_app_settings_file (c.dump s2.m_app_settings 2)
        if driftWriteOk then ⟨Outcome.ret (), s2, [written]⟩
        else ⟨Outcome.ret (), s2,
          [written, Event.logError "Failed to open settings file: \x7b\x7d"]⟩
    else ⟨Outcome.ret (), s1, []⟩

/-- Lines 125-130: the gated, latched call of the remote sync.  The lookup
`m_config.at` throws when the flag is not defined. -/
def remoteStep (c : Codec) (inp : TickInput) (s : SettingsManager) : Run Unit :=
  match Assoc.find "Enable_Auto_Update" s.m_config with
  | none => ⟨Outcome.raised, s, []⟩
  | some flag =>
    if flag && inp.hasError then
      if s.update_done = false then
        let r := UpdateSettingsFromServer c inp.http inp.syncWriteOk inp.promptYes s
        match r.out with
        | Outcome.raised => ⟨Outcome.raised, r.state, r.events⟩
        | Outcome.ret b => ⟨Outcome.ret (), { r.state with update_done := b }, r.events⟩
      else ⟨Outcome.ret (), s, []⟩
    else ⟨Outcome.ret (), s, []⟩

/-- One round of the loop of `Update` (lines 106-130), before the sleep. -/
def UpdateTick (c : Codec) (inp : TickInput) (s : SettingsManager) : Run Unit :=
  let d := driftStep c inp.driftWriteOk s
  match d.out with
  | Outcome.raised => d
  | Outcome.ret _ =>
    let r := remoteStep c inp d.state
    ⟨r.out, r.state, d.events ++ r.events⟩

/-- Consecutive ticks of one process run; an exception ends the run. -/
def runTicks (c : Codec) : List TickInput → SettingsManager → Run Unit
  | [], s => ⟨Outcome.ret (), s, []⟩
  | inp :: rest, s =>
    let t := UpdateTick c inp s
    match t.out with
    | Outcome.raised => t
    | Outcome.ret _ =>
      let r := runTicks c rest t.state
      ⟨r.out, r.state, t.events ++ r.events⟩

/-- An event is a call of `Utils::HttpGetRequest`. -/
def Event.isGet : Event → Bool
  | Event.httpGet _ => true
  | _ => false

/-- Number of times `UpdateSettingsFromServer` ran, told by the HTTP requests of
a trace: every call starts with one request and issues no other. -/
def syncCalls (evs : List Event) : Nat :=
  (evs.filter Event.isGet).length

/-! ## The static config file -/

/-- The search `line.find(pat)`: the first position at which `pat` occurs,
`none` for `npos`. -/
def wfind (pat : List Char) : List Char → Option Nat
  | [] => if pat.isEmpty then some 0 else none
  | ch :: rest =>
    if pat.isPrefixOf (ch :: rest) then some 0 else (wfind pat rest).map (fun i => i + 1)

/-- The test `line.substr(line.find(L"=") + 1) == L"1"`; `npos + 1` wraps to
zero. -/
def valueIsOne (line : List Char) : Bool :=
  line.drop (match wfind ['='] line with
    | some i => i + 1
    | none => 0) == ['1']

/-- The five keys in the order of the `if` chain of lines 239-253. -/
def configKeys : List String :=
  ["Block_Ads", "Block_Banner", "Enable_Developer", "Enable_Auto_Update", "Enable_Log"]

/-- The body of the `while` loop of `SyncConfigFile` for one line. -/
def processLine (line : String) (m_config : List (String × Bool)) : List (String × Bool) :=
  if (wfind "Block_Ads=".data line.data).isSome then
    Assoc.set "Block_Ads" (valueIsOne line.data) m_config
  else if (wfind "Block_Banner=".data line.data).isSome then
    Assoc.set "Block_Banner" (valueIsOne line.data) m_config
  else if (wfind "Enable_Developer=".data line.data).isSome then
    Assoc.set "Enable_Developer" (valueIsOne line.data) m_config
  else if (wfind "Enable_Auto_Update=".data line.data).isSome then
    Assoc.set "Enable_Auto_Update" (valueIsOne line.data) m_config
  else if (wfind "Enable_Log=".data line.data).isSome then
    Assoc.set "Enable_Log" (valueIsOne line.data) m_config
  else m_config

/-- The function `SettingsManager::SyncConfigFile`.  `file` is `none` when
`config.ini` cannot be opened, otherwise the lines `getline` yields. -/
def SyncConfigFile (file : Option (List String)) (m_config : List (String × Bool)) :
    List (String × Bool) :=
  match file with
  | none =>
    Assoc.set "Enable_Log" false (Assoc.set "Enable_Auto_Update" true
      (Assoc.set "Enable_Developer" true (Assoc.set "Block_Banner" true
        (Assoc.set "Block_Ads" true m_config))))
  | some lines => lines.foldl (fun cfg line => processLine line cfg) m_config

/-! ## Save and Init -/

/-- The list `Save` assigns to `m_block_list` (lines 30-34). -/
def builtinBlockList : List String :=
  ["/ads/", "/ad-logic/", "/gabo-receiver-service/"]

/-- Modelled from the spec: the assignment `doc[key] = v` through `operator[]`
of the absent class `Json`.  On an object it replaces or adds the entry.  The
spec gives `SaveToDisk` no failure other than a failed write, and `Init` calls
`Save` on the null document of a fresh process, so the operator is total: a
value that is not an object becomes an object holding the one entry. -/
def Json.setKey (j : Json) (k : String) (v : Json) : Json :=
  match j with
  | Json.object kvs => Json.object (Assoc.set k v kvs)
  | _ => Json.object [(k, v)]

/-- The document after lines 36-40 of `Save`. -/
def savedDocument (s : SettingsManager) : Json :=
  ((((s.m_app_settings.setKey "Latest Release Date" (Json.string s.m_latest_release_date)).setKey
    "Block List" (jsonOfBlockList builtinBlockList)).setKey
    "Zip Reader" s.m_zip_reader).setKey
    "Developer" s.m_developer).setKey
    "Cef Offsets" s.m_cef_offsets

/-- The function `SettingsManager::Save`; `writeOk` is the answer of
`Utils::WriteFile`. -/
def Save (c : Codec) (writeOk : Bool) (s : SettingsManager) : Run Bool :=
  let s1 := { s with m_block_list := builtinBlockList, m_app_settings := savedDocument s }
  let written := Event.writeFile s1.m_app_settings_file (c.dump s1.m_app_settings 2)
  if writeOk then ⟨Outcome.ret true, s1, [written]⟩
  else ⟨Outcome.ret false, s1,
    [written, Event.logError "Failed to save settings to file: \x7b\x7d"]⟩

/-- The architecture name of lines 273-277: `x64` on a 64-bit build, `x32`
otherwise. -/
def m_architecture (win64 : Bool) : String :=
  if win64 then "x64" else "x32"

/-- The function `SettingsManager::Init` up to the creation of the poll thread.
`config` is what `config.ini` holds (`none` when it cannot be opened), `file`
the answer of `Utils::ReadFile` for the settings file, `saveWriteOk` the answer
of `Utils::WriteFile` should `Save` run.  The lookup `m_config.at` of line 11
throws when `Enable_Log` is not defined. -/
def Init (c : Codec) (config : Option (List String)) (file : Option String)
    (saveWriteOk : Bool) (s : SettingsManager) : Run Unit :=
  let s1 := { s with m_config := SyncConfigFile config s.m_config }
  match Assoc.find "Enable_Log" s1.m_config with
  | none => ⟨Outcome.raised, s1, []⟩
  | some _ =>
    let s2 := { s1 with m_app_settings_file := "blockthespot_settings.json" }
    let loaded := Load c file Json.null s2
    match loaded.out with
    | Outcome.raised => ⟨Outcome.raised, loaded.state, loaded.events⟩
    | Outcome.ret true => ⟨Outcome.ret (), loaded.state, loaded.events⟩
    | Outcome.ret false =>
      let saved := Save c saveWriteOk loaded.state
      match saved.out with
      | Outcome.ret true => ⟨Outcome.ret (), saved.state, loaded.events ++ saved.events⟩
      | _ => ⟨Outcome.ret (), saved.state, loaded.events ++ saved.events ++
          [Event.logError "Failed to open settings file: \x7b\x7d"]⟩

/-! ## The loop of `Update` -/

/-- The window of line 104, `std::chrono::minutes(1)`, in seconds. -/
def pollWindow : Nat := 60

/-- The sleep of line 131, in seconds. -/
def pollSleep : Nat := 20

/-- The loop of `Update` (lines 105-132) on a clock that counts seconds.  The
round with index `i` is entered while `now < end_time`; it runs one tick and
sleeps, after which the clock reads `now + pollSleep + extra i`, where
`extra i` is the time the round took beyond its sleep.  The result is the run
together with the number of rounds entered; `none` means the fuel ran out
before the loop was left. -/
def UpdateLoop (c : Codec) (inp : Nat → TickInput) (extra : Nat → Nat) (end_time : Nat) :
    Nat → Nat → Nat → SettingsManager → Option (Run Unit × Nat)
  | 0, _, _, _ => none
  | fuel + 1, i, now, s =>
    if now < end_time then
      let t := UpdateTick c (inp i) s
      match t.out with
      | Outcome.raised => some (t, 1)
      | Outcome.ret _ =>
        match UpdateLoop c inp extra end_time fuel (i + 1) (now + pollSleep + extra i) t.state with
        | none => none
        | some (r, n) => some (⟨r.out, r.state, t.events ++ r.events⟩, n + 1)
    else some (⟨Outcome.ret (), s, []⟩, 0)

/-- The function `SettingsManager::Update` started when the clock reads `start`. -/
def Update (c : Codec) (inp : Nat → TickInput) (extra : Nat → Nat) (fuel start : Nat)
    (s : SettingsManager) : Option (Run Unit × Nat) :=
  UpdateLoop c inp extra (start + pollWindow) fuel 0 start s

/-! ## Vocabulary of the properties -/

/-- The keys tested before `K` in the `if` chain of `SyncConfigFile`. -/
def earlierKeys (K : String) : List String :=
  configKeys.takeWhile (fun k => k != K)


/-- The cached fields after the `try` block of `Load` has run to its end. -/
def populated (s : SettingsManager) (date : String) (bl : List String)
    (zip dev cef : Json) : SettingsManager :=
  { s with m_latest_release_date := date, m_block_list := bl, m_zip_reader := zip,
           m_developer := dev, m_cef_offsets := cef }

/-- The events a forced update adds after the write. -/
def promptEvents (forced promptYes : Bool) : List Event :=
  if forced then
    if promptYes then
      [Event.messageBox,
        Event.logInfo "Update requested by user.  Implement ZIP download/extraction here."]
    else [Event.messageBox]
  else []

/-- An event is a call of `Utils::WriteFile`. -/
def Event.isWrite : Event → Bool
  | Event.writeFile _ _ => true
  | _ => false

/-- An event is an error handed to the logger. -/
def Event.isError : Event → Bool
  | Event.logError _ => true
  | _ => false

/-- An event is the yes/no prompt. -/
def Event.isPrompt : Event → Bool
  | Event.messageBox => true
  | _ => false

/-- Each of the five fields of the document equals the cached value. -/
def Consistent (s : SettingsManager) : Prop :=
  s.m_app_settings.at_ "Latest Release Date" = some (Json.string s.m_latest_release_date) ∧
  s.m_app_settings.at_ "Block List" = some (jsonOfBlockList s.m_block_list) ∧
  s.m_app_settings.at_ "Zip Reader" = some s.m_zip_reader ∧
  s.m_app_settings.at_ "Developer" = some s.m_developer ∧
  s.m_app_settings.at_ "Cef Offsets" = some s.m_cef_offsets

/-- The three derived offsets. -/
def SettingsManager.offsets (s : SettingsManager) : Int × Int × Int :=
  (s.m_cef_request_t_get_url_offset, s.m_cef_zip_reader_t_get_file_name_offset,
    s.m_cef_zip_reader_t_read_file_offset)

/-- All three derived offsets are populated. -/
def OffsetsDerived (s : SettingsManager) : Prop :=
  s.m_cef_request_t_get_url_offset ≠ 0 ∧ s.m_cef_zip_reader_t_get_file_name_offset ≠ 0 ∧
  s.m_cef_zip_reader_t_read_file_offset ≠ 0

/-- One call of an operation of the settings manager, with the answers of its
collaborators. -/
inductive Op where
  | load (file : Option String) (settings : Json)
  | save (writeOk : Bool)
  | tick (inp : TickInput)
  | sync (http : Option String) (writeOk promptYes : Bool)

/-- The state an operation leaves. -/
def applyOp (c : Codec) (op : Op) (s : SettingsManager) : SettingsManager :=
  match op with
  | Op.load file settings => (Load c file settings s).state
  | Op.save writeOk => (Save c writeOk s).state
  | Op.tick inp => (UpdateTick c inp s).state
  | Op.sync http writeOk promptYes => (UpdateSettingsFromServer c http writeOk promptYes s).state

/-- The state a sequence of operations leaves. -/
def applyOps (c : Codec) (ops : List Op) (s : SettingsManager) : SettingsManager :=
  ops.foldl (fun st op => applyOp c op st) s

/-- The document with its five fields set to the cached values, as lines
114-118 leave it. -/
def syncedDocument (s : SettingsManager) : Json :=
  ((((s.m_app_settings.setKey "Latest Release Date" (Json.string s.m_latest_release_date)).setKey
    "Block List" (jsonOfBlockList s.m_block_list)).setKey
    "Zip Reader" s.m_zip_reader).setKey
    "Developer" s.m_developer).setKey
    "Cef Offsets" s.m_cef_offsets

/-! ## Sample data -/

/-- A per-architecture offsets table with the three named integers. -/
def sampleOffsets : Json :=
  Json.object [("x64", Json.object [("cef_request_t_get_url", Json.integer 48),
    ("cef_zip_reader_t_get_file_name", Json.integer 72),
    ("cef_zip_reader_t_read_file", Json.integer 112)])]

/-- A settings document with the five fields in their declared shape. -/
def sampleDoc (date : String) (blockList : List String) : Json :=
  Json.object [("Latest Release Date", Json.string date),
    ("Block List", jsonOfBlockList blockList),
    ("Zip Reader", Json.object []),
    ("Developer", Json.object []),
    ("Cef Offsets", sampleOffsets)]

mutual
/-- A compact one-line rendering of a document, used as a stand-in serializer in
concrete examples. -/
def render : Json → String
  | Json.null => "null"
  | Json.bool b => if b then "true" else "false"
  | Json.integer i => toString i
  | Json.string s => "\"" ++ s ++ "\""
  | Json.array xs => "[" ++ renderList xs ++ "]"
  | Json.object kvs => "\x7b" ++ renderFields kvs ++ "\x7d"
/-- Rendering of the elements of a sequence. -/
def renderList : List Json → String
  | [] => ""
  | x :: xs => render x ++ "," ++ renderList xs
/-- Rendering of the entries of an object. -/
def renderFields : List (String × Json) → String
  | [] => ""
  | (k, v) :: rest => "\"" ++ k ++ "\":" ++ render v ++ "," ++ renderFields rest
end

/-- A codec for concrete examples: it serializes with `render`, and every text it
is given is the text of the document `doc`. -/
def sampleCodec (doc : Json) : Codec where
  parse := fun _ => some doc
  dump := fun d _ => render d

/-- A state whose document and cached fields agree, with the offsets derived. -/
def sampleState (date : String) (blockList : List String) : SettingsManager :=
  { SettingsManager.initial with
    m_app_settings := sampleDoc date blockList
    m_latest_release_date := date
    m_block_list := blockList
    m_zip_reader := Json.object []
    m_developer := Json.object []
    m_cef_offsets := sampleOffsets
    m_app_settings_file := "blockthespot_settings.json"
    m_config := SyncConfigFile none []
    m_cef_request_t_get_url_offset := 48
    m_cef_zip_reader_t_get_file_name_offset := 72
    m_cef_zip_reader_t_read_file_offset := 112 }

/-- A state whose cached release date is older than the date of its document. -/
def staleDateState : SettingsManager :=
  { sampleState "2024-01-01" ["/a/"] with m_latest_release_date := "2023-12-31" }

/-- A tick during which the logger reports an error and the server cannot be
reached. -/
def offlineTick : TickInput where
  driftWriteOk := true
  hasError := true
  http := none
  syncWriteOk := true
  promptYes := false

/-- A document that passes validation although its block list holds an element
that is not a string. -/
def mixedBlockListDoc : Json :=
  Json.object [("Latest Release Date", Json.string "2024-02-01"),
    ("Block List", Json.array [Json.string "/b/", Json.integer 5]),
    ("Zip Reader", Json.object []),
    ("Developer", Json.object []),
    ("Cef Offsets", sampleOffsets)]

/-- A document that passes validation although its offsets table has no entry
for any architecture. -/
def noOffsetsDoc : Json :=
  Json.object [("Latest Release Date", Json.string "2024-01-01"),
    ("Block List", Json.array [Json.string "/a/"]),
    ("Zip Reader", Json.object []),
    ("Developer", Json.object []),
    ("Cef Offsets", Json.object [])]

/-- A document whose `Zip Reader` is present but is a string. -/
def stringZipDoc : Json :=
  Json.object [("Latest Release Date", Json.string "2024-02-01"),
    ("Block List", Json.array [Json.string "/a/"]),
    ("Zip Reader", Json.string "zip"),
    ("Developer", Json.object []),
    ("Cef Offsets", sampleOffsets)]

/-- A codec for concrete examples that serializes with `render` and parses the
renderings of the listed documents back to them. -/
def listCodec (docs : List Json) : Codec where
  parse := fun text => docs.find? (fun d => render d == text)
  dump := fun d _ => render d

/-- A valid document whose offsets table has an entry for each architecture. -/
def twoArchDoc : Json :=
  Json.object [("Latest Release Date", Json.string "2024-01-01"),
    ("Block List", Json.array [Json.string "/a/"]),
    ("Zip Reader", Json.object []),
    ("Developer", Json.object []),
    ("Cef Offsets", Json.object
      [("x32", Json.object [("cef_request_t_get_url", Json.integer 24),
          ("cef_zip_reader_t_get_file_name", Json.integer 36),
          ("cef_zip_reader_t_read_file", Json.integer 56)]),
        ("x64", Json.object [("cef_request_t_get_url", Json.integer 48),
          ("cef_zip_reader_t_get_file_name", Json.integer 72),
          ("cef_zip_reader_t_read_file", Json.integer 112)])])]

/-- The named integer of the offsets table of a document for an architecture. -/
def offsetEntry (doc : Json) (arch name : String) : Option Int :=
  (((doc.at_ "Cef Offsets").bind (fun t => t.at_ arch)).bind
    (fun a => a.at_ name)).bind Json.get_integer

/-- A state whose cached block list was changed in memory after the document
was written. -/
def driftedState : SettingsManager :=
  { sampleState "2024-01-01" ["/a/"] with m_block_list := ["/a/", "/b/"] }

/-- A document whose `Block List` is an empty object instead of an array. -/
def objectBlockListDoc : Json :=
  Json.object [("Latest Release Date", Json.string "2024-02-01"),
    ("Block List", Json.object []),
    ("Zip Reader", Json.object []),
    ("Developer", Json.object []),
    ("Cef Offsets", sampleOffsets)]

/-! ## Deep equality is equality -/

mutual
theorem Json.beq_iff_eq : ∀ a b : Json, a.beq b = true ↔ a = b
  | a, b => by
    cases a <;> cases b <;> simp [Json.beq]
    · exact Json.sameElements_iff_eq _ _
    · exact Json.sameFields_iff_eq _ _
theorem Json.sameElements_iff_eq :
    ∀ vs ws : List Json, Json.sameElements vs ws = true ↔ vs = ws
  | [], [] => by simp [Json.sameElements]
  | [], _ :: _ => by simp [Json.sameElements]
  | _ :: _, [] => by simp [Json.sameElements]
  | v :: vs, w :: ws => by
    simp [Json.sameElements, Json.beq_iff_eq v w, Json.sameElements_iff_eq vs ws]
theorem Json.sameFields_iff_eq :
    ∀ kvs kws : List (String × Json), Json.sameFields kvs kws = true ↔ kvs = kws
  | [], [] => by simp [Json.sameFields]
  | [], _ :: _ => by simp [Json.sameFields]
  | _ :: _, [] => by simp [Json.sameFields]
  | (k, v) :: kvs, (l, w) :: kws => by
    simp [Json.sameFields, Json.beq_iff_eq v w, Json.sameFields_iff_eq kvs kws, and_assoc]
end

/-- The comparison of `CompareSettings` holds exactly for equal documents. -/
theorem CompareSettings_iff_eq (a b : Json) : CompareSettings a b = true ↔ a = b :=
  Json.beq_iff_eq a b

/-! ## Validation: properties -/

theorem Assoc.find_erase_self {α : Type} (k : String) (kvs : List (String × α)) :
    Assoc.find k (Assoc.erase k kvs) = none := by
  induction kvs with
  | nil => rfl
  | cons p rest ih =>
    obtain ⟨l, v⟩ := p
    by_cases h : l = k <;> simp [Assoc.erase, Assoc.find, h, ih]

theorem contains_withoutField (d : Json) (k : String) :
    (d.withoutField k).contains k = false := by
  cases d <;> simp [Json.withoutField, Json.contains, Assoc.find_erase_self]

theorem contains_eq_at_isSome (d : Json) (k : String) :
    d.contains k = (d.at_ k).isSome := by
  cases d <;> simp [Json.contains, Json.at_]

/-- The result of validation as one boolean expression. -/
theorem ValidateSettings_eq (d : Json) :
    ValidateSettings d =
      (!d.empty && d.is_object &&
        (d.at_ "Latest Release Date").any Json.is_string &&
        (d.at_ "Block List").any Json.is_array &&
        (d.at_ "Zip Reader").any Json.is_object &&
        (d.at_ "Developer").any Json.is_object &&
        (d.at_ "Cef Offsets").any Json.is_object) := by
  unfold ValidateSettings ValidateSettingsLog
  simp only [contains_eq_at_isSome]
  cases d.at_ "Latest Release Date" <;> cases d.at_ "Block List" <;>
    cases d.at_ "Zip Reader" <;> cases d.at_ "Developer" <;>
    cases d.at_ "Cef Offsets" <;> cases d.empty <;> cases d.is_object <;>
    simp <;> split_ifs <;> simp_all

theorem option_any_eq_true {α : Type} (o : Option α) (p : α → Bool) :
    o.any p = true ↔ ∃ v, o = some v ∧ p v = true := by
  cases o <;> simp

theorem ValidateSettings_eq_true_iff (d : Json) :
    ValidateSettings d = true ↔ WellShaped d := by
  rw [ValidateSettings_eq]
  unfold WellShaped
  simp only [Bool.and_eq_true, option_any_eq_true, Bool.not_eq_true', and_assoc]
  constructor
  · rintro ⟨h1, h2, h⟩
    exact ⟨h2, h1, h⟩
  · rintro ⟨h1, h2, h⟩
    exact ⟨h2, h1, h⟩

/-- Removing a required field from any document makes validation fail. -/
theorem ValidateSettings_withoutField (d : Json) (k : String) (hk : k ∈ requiredFields) :
    ValidateSettings (d.withoutField k) = false := by
  have hc := contains_withoutField d k
  rw [contains_eq_at_isSome] at hc
  have hn : (d.withoutField k).at_ k = none := by
    cases h : (d.withoutField k).at_ k <;> simp_all
  rw [ValidateSettings_eq]
  simp only [requiredFields, List.mem_cons, List.mem_singleton, List.not_mem_nil, or_false] at hk
  rcases hk with rfl | rfl | rfl | rfl | rfl <;> simp [hn]

/-- C1: `ValidateSettings` accepts a document exactly when it is a non-empty
object in which `Latest Release Date` is a string, `Block List` an array and
`Zip Reader`, `Developer`, `Cef Offsets` are objects; hence an accepted document
with any one of the five required fields removed is rejected. -/
theorem ValidateSettings_accepts_iff_wellShaped (d : Json) :
    (ValidateSettings d = true ↔ WellShaped d) ∧
    (ValidateSettings d = true →
      ∀ k ∈ requiredFields, ValidateSettings (d.withoutField k) = false) :=
  ⟨ValidateSettings_eq_true_iff d, fun _ k hk => ValidateSettings_withoutField d k hk⟩

/-- C1 on a concrete accepted document: each single removal is rejected. -/
theorem ValidateSettings_accepts_iff_wellShaped_witness :
    ValidateSettings (sampleDoc "2024-01-01" ["/a/"]) = true ∧
    ∀ k ∈ requiredFields,
      ValidateSettings ((sampleDoc "2024-01-01" ["/a/"]).withoutField k) = false :=
  ⟨by decide,
    (ValidateSettings_accepts_iff_wellShaped (sampleDoc "2024-01-01" ["/a/"])).2 (by decide)⟩

/-! ## Load: properties -/

theorem Load_of_not_null (c : Codec) (file : Option String) (settings : Json)
    (s : SettingsManager) (h : settings.is_null = false) :
    Load c file settings s = populate { s with m_app_settings := settings } [] := by
  simp [Load, h]

theorem get_string_eq_some (v : Json) (str : String) :
    v.get_string = some str ↔ v = Json.string str := by
  cases v <;> simp [Json.get_string]

/-- When `populate` does not end in its handler, every read of the `try` block
succeeded and the rest of the call is the derivation of the offsets. -/
theorem populate_cases (s : SettingsManager) (evs : List Event) :
    (∃ s1, populate s evs = retrieveFailed s1 evs ∧ s1.m_app_settings = s.m_app_settings) ∨
    (∃ date blj bl zip dev cef,
      s.m_app_settings.at_ "Latest Release Date" = some (Json.string date) ∧
      s.m_app_settings.at_ "Block List" = some blj ∧
      pushBlockList blj blj.size 0 [] = (bl, true) ∧
      s.m_app_settings.at_ "Zip Reader" = some zip ∧
      s.m_app_settings.at_ "Developer" = some dev ∧
      s.m_app_settings.at_ "Cef Offsets" = some cef ∧
      populate s evs = deriveOffsets (populated s date bl zip dev cef) evs) := by
  unfold populate
  cases h1 : (s.m_app_settings.at_ "Latest Release Date").bind Json.get_string with
  | none => exact Or.inl ⟨s, rfl, rfl⟩
  | some date =>
    obtain ⟨v, hv, hd⟩ := Option.bind_eq_some.mp h1
    rw [get_string_eq_some] at hd
    subst hd
    simp only []
    cases h2 : s.m_app_settings.at_ "Block List" with
    | none => exact Or.inl ⟨_, rfl, rfl⟩
    | some blj =>
      simp only []
      cases h3 : (pushBlockList blj blj.size 0 []).2 with
      | false => simp only [if_true]; exact Or.inl ⟨_, rfl, rfl⟩
      | true =>
        simp only [Bool.true_eq_false, if_false]
        cases h4 : s.m_app_settings.at_ "Zip Reader" with
        | none => exact Or.inl ⟨_, rfl, rfl⟩
        | some zip =>
          simp only []
          cases h5 : s.m_app_settings.at_ "Developer" with
          | none => exact Or.inl ⟨_, rfl, rfl⟩
          | some dev =>
            simp only []
            cases h6 : s.m_app_settings.at_ "Cef Offsets" with
            | none => exact Or.inl ⟨_, rfl, rfl⟩
            | some cef =>
              refine Or.inr ⟨date, blj, (pushBlockList blj blj.size 0 []).1, zip, dev, cef,
                hv, rfl, ?_, rfl, rfl, rfl, rfl⟩
              rw [← h3]

/-- The derivation of the offsets touches nothing but the three offsets, logs
nothing, and either returns true or is left by an exception. -/
theorem deriveOffsets_frame (s : SettingsManager) (evs : List Event) :
    (∃ o1 o2 o3, (deriveOffsets s evs).state =
      { s with m_cef_request_t_get_url_offset := o1,
               m_cef_zip_reader_t_get_file_name_offset := o2,
               m_cef_zip_reader_t_read_file_offset := o3 }) ∧
    (deriveOffsets s evs).events = evs ∧
    ((deriveOffsets s evs).out = Outcome.ret true ∨ (deriveOffsets s evs).out = Outcome.raised) := by
  unfold deriveOffsets
  split_ifs with h0
  · cases h1 : ((s.m_cef_offsets.at_ "x64").bind
        (fun a => a.at_ "cef_request_t_get_url")).bind Json.get_integer with
    | none => exact ⟨⟨_, _, _, rfl⟩, rfl, Or.inr rfl⟩
    | some o1 =>
      simp only []
      cases h2 : ((s.m_cef_offsets.at_ "x64").bind
          (fun a => a.at_ "cef_zip_reader_t_get_file_name")).bind Json.get_integer with
      | none => exact ⟨⟨_, _, _, rfl⟩, rfl, Or.inr rfl⟩
      | some o2 =>
        simp only []
        cases h3 : ((s.m_cef_offsets.at_ "x64").bind
            (fun a => a.at_ "cef_zip_reader_t_read_file")).bind Json.get_integer with
        | none => exact ⟨⟨_, _, _, rfl⟩, rfl, Or.inr rfl⟩
        | some o3 => exact ⟨⟨_, _, _, rfl⟩, rfl, Or.inl rfl⟩
  · exact ⟨⟨_, _, _, rfl⟩, rfl, Or.inl rfl⟩

/-- The loop over a sequence collects its elements as long as they are strings. -/
theorem pushBlockList_array (xs : List Json) :
    ∀ (n i : Nat) (acc bl : List String), i + n = xs.length →
      pushBlockList (Json.array xs) n i acc = (bl, true) →
      acc.map Json.string ++ xs.drop i = bl.map Json.string := by
  intro n
  induction n with
  | zero =>
    intro i acc bl hlen h
    simp only [pushBlockList, Prod.mk.injEq, and_true] at h
    subst h
    have : xs.drop i = [] := List.drop_eq_nil_of_le (by omega)
    simp [this]
  | succ n ih =>
    intro i acc bl hlen h
    unfold pushBlockList at h
    cases hx : ((Json.array xs).idx i).bind Json.get_string with
    | none => simp [hx] at h
    | some str =>
      simp only [hx] at h
      obtain ⟨v, hv, hs⟩ := Option.bind_eq_some.mp hx
      rw [get_string_eq_some] at hs
      subst hs
      have hget : xs.get? i = some (Json.string str) := hv
      have hdrop : xs.drop i = Json.string str :: xs.drop (i + 1) := by
        have hi : i < xs.length := by omega
        rw [List.drop_eq_getElem_cons hi]
        congr 1
        rw [List.get?_eq_getElem? , List.getElem?_eq_getElem hi] at hget
        exact Option.some.inj hget
      have := ih (i + 1) (acc ++ [str]) bl (by omega) h
      rw [hdrop]
      simpa using this

theorem pushBlockList_array_all (xs : List Json) (bl : List String)
    (h : pushBlockList (Json.array xs) (Json.array xs).size 0 [] = (bl, true)) :
    Json.array xs = jsonOfBlockList bl := by
  have := pushBlockList_array xs xs.length 0 [] bl (by simp) h
  simp at this
  simp [jsonOfBlockList, this]

theorem Load_ret_true (c : Codec) (file : Option String) (r : Json) (s : SettingsManager)
    (hnull : r.is_null = false) (h : (Load c file r s).out = Outcome.ret true) :
    ∃ date blj bl zip dev cef o1 o2 o3,
      r.at_ "Latest Release Date" = some (Json.string date) ∧
      r.at_ "Block List" = some blj ∧
      pushBlockList blj blj.size 0 [] = (bl, true) ∧
      r.at_ "Zip Reader" = some zip ∧
      r.at_ "Developer" = some dev ∧
      r.at_ "Cef Offsets" = some cef ∧
      (Load c file r s).state =
        { populated { s with m_app_settings := r } date bl zip dev cef with
          m_cef_request_t_get_url_offset := o1,
          m_cef_zip_reader_t_get_file_name_offset := o2,
          m_cef_zip_reader_t_read_file_offset := o3 } ∧
      (Load c file r s).events = [] := by
  rw [Load_of_not_null c file r s hnull] at h ⊢
  rcases populate_cases { s with m_app_settings := r } [] with ⟨s1, hp, _⟩ | hp
  · rw [hp] at h
    simp [retrieveFailed] at h
  · obtain ⟨date, blj, bl, zip, dev, cef, h1, h2, h3, h4, h5, h6, hp⟩ := hp
    obtain ⟨⟨o1, o2, o3, hst⟩, hev, _⟩ :=
      deriveOffsets_frame (populated { s with m_app_settings := r } date bl zip dev cef) []
    exact ⟨date, blj, bl, zip, dev, cef, o1, o2, o3, h1, h2, h3, h4, h5, h6,
      by rw [hp, hst], by rw [hp, hev]⟩

theorem is_string_iff (v : Json) : v.is_string = true ↔ ∃ str, v = Json.string str := by
  cases v <;> simp [Json.is_string]

theorem is_array_iff (v : Json) : v.is_array = true ↔ ∃ xs, v = Json.array xs := by
  cases v <;> simp [Json.is_array]

theorem is_null_of_is_object (v : Json) (h : v.is_object = true) : v.is_null = false := by
  cases v <;> simp_all [Json.is_object, Json.is_null]

/-- What validation guarantees about the fields the sync reads. -/
theorem ValidateSettings_fields (r : Json) (h : ValidateSettings r = true) :
    r.is_null = false ∧ (∃ date, r.at_ "Latest Release Date" = some (Json.string date)) ∧
    (∃ xs, r.at_ "Block List" = some (Json.array xs)) := by
  obtain ⟨ho, _, ⟨v, hv, hs⟩, ⟨w, hw, ha⟩, _⟩ := (ValidateSettings_eq_true_iff r).mp h
  obtain ⟨date, rfl⟩ := (is_string_iff v).mp hs
  obtain ⟨xs, rfl⟩ := (is_array_iff w).mp ha
  exact ⟨is_null_of_is_object r ho, ⟨date, hv⟩, ⟨xs, hw⟩⟩

/-- The remote sync on a valid document that differs from the current one, when
ingestion and the write succeed. -/
theorem sync_adopts_eq (c : Codec) (s : SettingsManager) (text : String)
    (r : Json) (date : String) (promptYes : Bool)
    (hparse : c.parse text = some r) (hval : ValidateSettings r = true)
    (hne : CompareSettings r s.m_app_settings = false)
    (hdate : r.at_ "Latest Release Date" = some (Json.string date))
    (hload : (Load c none r s).out = Outcome.ret true) :
    UpdateSettingsFromServer c (some text) true promptYes s =
      ⟨Outcome.ret true, { (Load c none r s).state with m_latest_release_date := date },
        [Event.httpGet settingsUrl] ++ (Load c none r s).events ++
          [Event.writeFile (Load c none r s).state.m_app_settings_file (c.dump r 2),
            Event.logInfo "Settings updated from server."] ++
          promptEvents (forcedUpdate s date) promptYes⟩ := by
  have hv : (ValidateSettingsLog r).1 = true := hval
  unfold UpdateSettingsFromServer
  simp only [hparse, hv, hne, hdate, Option.bind_some, Json.get_string, hload]
  unfold promptEvents
  cases hf : forcedUpdate s date <;> cases promptYes <;> simp [hf]

/-- Everything `Load` hands to its collaborators is an error for the logger. -/
theorem Load_events_errors (c : Codec) (file : Option String) (r : Json)
    (s : SettingsManager) (hnull : r.is_null = false) :
    ∀ e ∈ (Load c file r s).events, e.isError = true := by
  rw [Load_of_not_null c file r s hnull]
  rcases populate_cases { s with m_app_settings := r } [] with ⟨s1, hp, _⟩ | hp
  · rw [hp]
    simp [retrieveFailed, Event.isError]
  · obtain ⟨date, blj, bl, zip, dev, cef, _, _, _, _, _, _, hp⟩ := hp
    rw [hp, (deriveOffsets_frame _ _).2.1]
    simp

/-! ## Remote synchronisation: properties -/

/-- C4: when the fetched document parses, validates and is deep-equal to the
current in-memory document, `UpdateSettingsFromServer` returns true and leaves
the whole state (document, cached fields, derived offsets) as it was; its only
event is the HTTP request, so nothing is written and no prompt is shown. -/
theorem UpdateSettingsFromServer_in_sync (c : Codec) (s : SettingsManager) (text : String)
    (r : Json) (writeOk promptYes : Bool)
    (hparse : c.parse text = some r) (hval : ValidateSettings r = true)
    (heq : CompareSettings r s.m_app_settings = true) :
    (UpdateSettingsFromServer c (some text) writeOk promptYes s).out = Outcome.ret true ∧
    (UpdateSettingsFromServer c (some text) writeOk promptYes s).state = s ∧
    (UpdateSettingsFromServer c (some text) writeOk promptYes s).events =
      [Event.httpGet settingsUrl] := by
  have hv : (ValidateSettingsLog r).1 = true := hval
  unfold UpdateSettingsFromServer
  simp [hparse, hv, heq]

/-- C4 on a concrete state whose document is the one the server returns. -/
theorem UpdateSettingsFromServer_in_sync_witness :
    (UpdateSettingsFromServer (sampleCodec (sampleDoc "2024-01-01" ["/a/"]))
        (some (render (sampleDoc "2024-01-01" ["/a/"]))) true true
        (sampleState "2024-01-01" ["/a/"])).state = sampleState "2024-01-01" ["/a/"] :=
  (UpdateSettingsFromServer_in_sync (sampleCodec (sampleDoc "2024-01-01" ["/a/"]))
    (sampleState "2024-01-01" ["/a/"]) (render (sampleDoc "2024-01-01" ["/a/"]))
    (sampleDoc "2024-01-01" ["/a/"]) true true rfl (by decide) (by decide)).2.1

/-- C5: when the HTTP request fails, `UpdateSettingsFromServer` returns false,
leaves the whole state as it was, and apart from the request itself its only
event is one error for the logger: no write, no prompt. -/
theorem UpdateSettingsFromServer_fetch_failed (c : Codec) (s : SettingsManager)
    (writeOk promptYes : Bool) :
    (UpdateSettingsFromServer c none writeOk promptYes s).out = Outcome.ret false ∧
    (UpdateSettingsFromServer c none writeOk promptYes s).state = s ∧
    ((UpdateSettingsFromServer c none writeOk promptYes s).events.filter Event.isError).length
      = 1 ∧
    (UpdateSettingsFromServer c none writeOk promptYes s).events.filter Event.isWrite = [] ∧
    (UpdateSettingsFromServer c none writeOk promptYes s).events.filter Event.isPrompt = [] := by
  simp [UpdateSettingsFromServer, syncCaught, Event.isError, Event.isWrite, Event.isPrompt]

/-- C6: for a valid remote document `r` that is not deep-equal to the current
document, when `Load(r)` and the file write both succeed the sync returns true,
the in-memory document is `r`, the cached release date and block list are those
of `r` (same order), the one text written to the settings file is `dump(r, 2)`,
and the prompt is shown when the release date differs from the one cached
before. -/
theorem UpdateSettingsFromServer_adopts_remote (c : Codec) (s : SettingsManager)
    (text : String) (r : Json) (file : Option String) (promptYes : Bool)
    (hparse : c.parse text = some r) (hval : ValidateSettings r = true)
    (hne : CompareSettings r s.m_app_settings = false)
    (hload : (Load c file r s).out = Outcome.ret true) :
    (UpdateSettingsFromServer c (some text) true promptYes s).out = Outcome.ret true ∧
    (UpdateSettingsFromServer c (some text) true promptYes s).state.m_app_settings = r ∧
    r.at_ "Latest Release Date" = some (Json.string
      (UpdateSettingsFromServer c (some text) true promptYes s).state.m_latest_release_date) ∧
    r.at_ "Block List" = some (jsonOfBlockList
      (UpdateSettingsFromServer c (some text) true promptYes s).state.m_block_list) ∧
    (UpdateSettingsFromServer c (some text) true promptYes s).events.filter Event.isWrite =
      [Event.writeFile s.m_app_settings_file (c.dump r 2)] ∧
    (s.m_latest_release_date ≠
        (UpdateSettingsFromServer c (some text) true promptYes s).state.m_latest_release_date →
      (UpdateSettingsFromServer c (some text) true promptYes s).events.filter Event.isPrompt =
        [Event.messageBox]) := by
  obtain ⟨hnull, ⟨date, hdate⟩, ⟨xs, hxs⟩⟩ := ValidateSettings_fields r hval
  have hl : Load c file r s = Load c none r s := by
    rw [Load_of_not_null c file r s hnull, Load_of_not_null c none r s hnull]
  rw [hl] at hload
  obtain ⟨date2, blj, bl, zip, dev, cef, o1, o2, o3, h1, h2, h3, _, _, _, hst, hev⟩ :=
    Load_ret_true c none r s hnull hload
  rw [sync_adopts_eq c s text r date promptYes hparse hval hne hdate hload,
    hst, hev]
  rw [hxs] at h2
  have hblj : blj = Json.array xs := (Option.some.inj h2).symm
  subst hblj
  have hbl := pushBlockList_array_all xs bl h3
  refine ⟨rfl, rfl, hdate, ?_, ?_, ?_⟩
  · simp [populated, hxs, hbl]
  · unfold promptEvents
    cases forcedUpdate s date <;> cases promptYes <;>
      simp [populated, Event.isWrite]
  · intro hd
    have hf : forcedUpdate s date = true := by
      simpa [forcedUpdate] using hd
    unfold promptEvents
    cases promptYes <;> simp [hf, Event.isPrompt]

/-- C6 on the scenario of the spec: local date 2024-01-01 with block list
`/a/`, remote date 2024-02-01 with block list `/a/`, `/b/`. -/
theorem UpdateSettingsFromServer_adopts_remote_witness :
    ((UpdateSettingsFromServer (sampleCodec (sampleDoc "2024-02-01" ["/a/", "/b/"]))
        (some "") true false (sampleState "2024-01-01" ["/a/"])).out = Outcome.ret true ∧
      (UpdateSettingsFromServer (sampleCodec (sampleDoc "2024-02-01" ["/a/", "/b/"]))
        (some "") true false (sampleState "2024-01-01" ["/a/"])).state.m_app_settings =
        sampleDoc "2024-02-01" ["/a/", "/b/"]) ∧
    (UpdateSettingsFromServer (sampleCodec (sampleDoc "2024-02-01" ["/a/", "/b/"]))
        (some "") true false (sampleState "2024-01-01" ["/a/"])).state.m_latest_release_date =
      "2024-02-01" ∧
    (UpdateSettingsFromServer (sampleCodec (sampleDoc "2024-02-01" ["/a/", "/b/"]))
        (some "") true false (sampleState "2024-01-01" ["/a/"])).state.m_block_list =
      ["/a/", "/b/"] ∧
    (UpdateSettingsFromServer (sampleCodec (sampleDoc "2024-02-01" ["/a/", "/b/"]))
        (some "") true false (sampleState "2024-01-01" ["/a/"])).events.filter Event.isPrompt =
      [Event.messageBox] :=
  ⟨⟨(UpdateSettingsFromServer_adopts_remote
      (sampleCodec (sampleDoc "2024-02-01" ["/a/", "/b/"])) (sampleState "2024-01-01" ["/a/"])
      "" (sampleDoc "2024-02-01" ["/a/", "/b/"]) none false rfl (by decide) (by decide)
      (by decide)).1,
    (UpdateSettingsFromServer_adopts_remote
      (sampleCodec (sampleDoc "2024-02-01" ["/a/", "/b/"])) (sampleState "2024-01-01" ["/a/"])
      "" (sampleDoc "2024-02-01" ["/a/", "/b/"]) none false rfl (by decide) (by decide)
      (by decide)).2.1⟩,
    by decide, by decide, by decide⟩

theorem messageBox_not_mem_Load_events (c : Codec) (file : Option String) (r : Json)
    (s : SettingsManager) (hnull : r.is_null = false) :
    Event.messageBox ∉ (Load c file r s).events := by
  intro h
  have := Load_events_errors c file r s hnull _ h
  simp [Event.isError] at this

/-- C3, as amended: for a fetched document that parses and validates, the prompt
of a forced update is shown exactly when the document is not deep-equal to the
current one, ingestion and the write succeed, and its release date differs from
the cached release date; nothing is asked of the other four fields. -/
theorem UpdateSettingsFromServer_prompt_iff (c : Codec) (s : SettingsManager)
    (text : String) (r : Json) (date : String) (writeOk promptYes : Bool)
    (hparse : c.parse text = some r) (hval : ValidateSettings r = true)
    (hdate : r.at_ "Latest Release Date" = some (Json.string date)) :
    Event.messageBox ∈ (UpdateSettingsFromServer c (some text) writeOk promptYes s).events ↔
      (CompareSettings r s.m_app_settings = false ∧
        (Load c none r s).out = Outcome.ret true ∧ writeOk = true ∧
        s.m_latest_release_date ≠ date) := by
  have hv : (ValidateSettingsLog r).1 = true := hval
  have hnull := (ValidateSettings_fields r hval).1
  have hnot := messageBox_not_mem_Load_events c none r s hnull
  unfold UpdateSettingsFromServer
  simp only [hparse, hv, hdate, Option.bind_some, Json.get_string]
  cases hc : CompareSettings r s.m_app_settings with
  | true => simp
  | false =>
    simp only [Bool.true_eq_false, if_false, if_true, true_and]
    cases hl : (Load c none r s).out with
    | raised => simp [syncCaught, hnot]
    | ret b =>
      cases b with
      | false => simp [hnot]
      | true =>
        cases writeOk with
        | false => simp [hnot]
        | true =>
          cases hf : forcedUpdate s date <;> cases promptYes <;>
            simp_all [forcedUpdate]

/-- C3, as amended, on the scenario of the spec: the dates differ and the prompt
is shown. -/
theorem UpdateSettingsFromServer_prompt_iff_witness :
    Event.messageBox ∈
      (UpdateSettingsFromServer (sampleCodec (sampleDoc "2024-02-01" ["/a/", "/b/"]))
        (some "") true false (sampleState "2024-01-01" ["/a/"])).events :=
  (UpdateSettingsFromServer_prompt_iff (sampleCodec (sampleDoc "2024-02-01" ["/a/", "/b/"]))
    (sampleState "2024-01-01" ["/a/"]) "" (sampleDoc "2024-02-01" ["/a/", "/b/"])
    "2024-02-01" true false rfl (by decide) rfl).mpr
    ⟨by decide, by decide, rfl, by decide⟩

/-- C3, as stated, fails: the fetched document validates and carries a release
date other than the cached one, yet it is deep-equal to the in-memory document,
so the sync returns true with the HTTP request as its only event: no ingestion,
no write and no prompt. -/
theorem UpdateSettingsFromServer_forced_counterexample :
    ValidateSettings (sampleDoc "2024-01-01" ["/a/"]) = true ∧
    (sampleDoc "2024-01-01" ["/a/"]).at_ "Latest Release Date" =
      some (Json.string "2024-01-01") ∧
    staleDateState.m_latest_release_date ≠ "2024-01-01" ∧
    forcedUpdate staleDateState "2024-01-01" = true ∧
    (UpdateSettingsFromServer (sampleCodec (sampleDoc "2024-01-01" ["/a/"])) (some "")
      true true staleDateState).out = Outcome.ret true ∧
    (UpdateSettingsFromServer (sampleCodec (sampleDoc "2024-01-01" ["/a/"])) (some "")
      true true staleDateState).events = [Event.httpGet settingsUrl] :=
  ⟨by decide, rfl, by decide, by decide, by decide, by decide⟩

/-! ## The poll tick: properties -/

theorem isGet_of_isError (e : Event) (h : e.isError = true) : e.isGet = false := by
  cases e <;> simp_all [Event.isError, Event.isGet]

theorem filter_isGet_of_errors (evs : List Event) (h : ∀ e ∈ evs, e.isError = true) :
    evs.filter Event.isGet = [] := by
  rw [List.filter_eq_nil_iff]
  intro e he
  simp [isGet_of_isError e (h e he)]

theorem ValidateSettingsLog_errors (d : Json) :
    ∀ e ∈ (ValidateSettingsLog d).2, e.isError = true := by
  unfold ValidateSettingsLog
  split_ifs <;> simp [Event.isError]

/-- The remote sync always returns, and asks for the document exactly once. -/
theorem UpdateSettingsFromServer_returns (c : Codec) (http : Option String)
    (writeOk promptYes : Bool) (s : SettingsManager) :
    (∃ b, (UpdateSettingsFromServer c http writeOk promptYes s).out = Outcome.ret b) ∧
    syncCalls (UpdateSettingsFromServer c http writeOk promptYes s).events = 1 := by
  unfold UpdateSettingsFromServer syncCalls
  cases http with
  | none => simp [syncCaught, Event.isGet]
  | some text =>
    cases hp : c.parse text with
    | none => simp [hp, syncCaught, Event.isGet]
    | some r =>
      simp only [hp]
      cases hv : (ValidateSettingsLog r).1 with
      | false =>
        simp [hv, filter_isGet_of_errors _ (ValidateSettingsLog_errors r), Event.isGet]
      | true =>
        have hnull := (ValidateSettings_fields r hv).1
        have hload := filter_isGet_of_errors _ (Load_events_errors c none r s hnull)
        simp only [hv, Bool.true_eq_false, if_false]
        cases hc : CompareSettings r s.m_app_settings with
        | true => simp [hc, Event.isGet]
        | false =>
          simp only [hc, if_true]
          cases hd : (r.at_ "Latest Release Date").bind Json.get_string with
          | none => simp [hd, syncCaught, Event.isGet]
          | some date =>
            simp only [hd]
            cases hl : (Load c none r s).out with
            | raised => simp [hl, syncCaught, Event.isGet, hload]
            | ret b =>
              cases b with
              | false => simp [hl, Event.isGet, hload]
              | true =>
                cases writeOk <;> cases hf : forcedUpdate s date <;> cases promptYes <;>
                  simp [hl, hf, Event.isGet, hload]

theorem storeCached_frame (s : SettingsManager) :
    (storeCached s).1.update_done = s.update_done ∧ (storeCached s).1.m_config = s.m_config := by
  unfold storeCached
  split
  · exact ⟨rfl, rfl⟩
  · split
    · exact ⟨rfl, rfl⟩
    · split
      · exact ⟨rfl, rfl⟩
      · split
        · exact ⟨rfl, rfl⟩
        · split <;> exact ⟨rfl, rfl⟩

/-- The drift step neither touches the latch or the config nor calls the sync. -/
theorem driftStep_frame (c : Codec) (w : Bool) (s : SettingsManager) :
    (driftStep c w s).state.update_done = s.update_done ∧
    (driftStep c w s).state.m_config = s.m_config ∧
    syncCalls (driftStep c w s).events = 0 := by
  unfold driftStep
  cases hd : driftChanged s with
  | none => simp [syncCalls]
  | some changed =>
    cases changed with
    | false => simp [syncCalls]
    | true =>
      simp only [if_true]
      have hf := storeCached_frame { s with m_settings_changed := true }
      cases hs : storeCached { s with m_settings_changed := true } with
      | mk s2 ok =>
        rw [hs] at hf
        cases ok <;> cases w <;> simp_all [syncCalls, Event.isGet]

/-- With the latch set, the remote step does nothing. -/
theorem remoteStep_latched (c : Codec) (inp : TickInput) (s : SettingsManager)
    (h : s.update_done = true) :
    (remoteStep c inp s).state = s ∧ (remoteStep c inp s).events = [] := by
  unfold remoteStep
  cases Assoc.find "Enable_Auto_Update" s.m_config with
  | none => simp
  | some flag => cases flag <;> cases inp.hasError <;> simp [h]

theorem UpdateTick_latched (c : Codec) (inp : TickInput) (s : SettingsManager)
    (h : s.update_done = true) :
    (UpdateTick c inp s).state.update_done = true ∧ syncCalls (UpdateTick c inp s).events = 0 := by
  obtain ⟨h1, _, h3⟩ := driftStep_frame c inp.driftWriteOk s
  unfold UpdateTick
  cases hd : (driftStep c inp.driftWriteOk s).out with
  | raised =>
    simp only [hd]
    exact ⟨by rw [h1, h], h3⟩
  | ret u =>
    simp only [hd]
    obtain ⟨hs, he⟩ := remoteStep_latched c inp (driftStep c inp.driftWriteOk s).state
      (by rw [h1, h])
    rw [hs, he]
    exact ⟨by rw [h1, h], by simpa using h3⟩

theorem syncCalls_append (a b : List Event) : syncCalls (a ++ b) = syncCalls a + syncCalls b := by
  simp [syncCalls]

theorem runTicks_latched (c : Codec) (inputs : List TickInput) :
    ∀ s : SettingsManager, s.update_done = true →
      (runTicks c inputs s).state.update_done = true ∧
      syncCalls (runTicks c inputs s).events = 0 := by
  induction inputs with
  | nil => intro s h; exact ⟨h, rfl⟩
  | cons inp rest ih =>
    intro s h
    obtain ⟨h1, h2⟩ := UpdateTick_latched c inp s h
    unfold runTicks
    cases ht : (UpdateTick c inp s).out with
    | raised => simp only [ht]; exact ⟨h1, h2⟩
    | ret u =>
      simp only [ht]
      obtain ⟨h3, h4⟩ := ih (UpdateTick c inp s).state h1
      exact ⟨h3, by rw [syncCalls_append, h2, h4]⟩

/-- C2, as amended: the latch holds the result of the last remote sync.  Once it
is set no tick of any later sequence calls the sync again; while it is clear, a
gated tick calls the sync once and sets the latch exactly when that call
returned true, so a failed sync leaves the latch clear for the next tick. -/
theorem Update_latch_holds_sync_result (c : Codec) (inputs : List TickInput)
    (inp : TickInput) (s : SettingsManager) :
    (s.update_done = true →
      syncCalls (runTicks c inputs s).events = 0 ∧
      (runTicks c inputs s).state.update_done = true) ∧
    (s.update_done = false → Assoc.find "Enable_Auto_Update" s.m_config = some true →
      inp.hasError = true →
      syncCalls (remoteStep c inp s).events = 1 ∧
      ((remoteStep c inp s).state.update_done = true ↔
        (UpdateSettingsFromServer c inp.http inp.syncWriteOk inp.promptYes s).out =
          Outcome.ret true)) := by
  refine ⟨fun h => ⟨(runTicks_latched c inputs s h).2, (runTicks_latched c inputs s h).1⟩, ?_⟩
  intro hdone hcfg herr
  obtain ⟨⟨b, hb⟩, hcalls⟩ :=
    UpdateSettingsFromServer_returns c inp.http inp.syncWriteOk inp.promptYes s
  unfold remoteStep
  simp only [hcfg, herr, hdone, Bool.and_self, if_true, hb]
  exact ⟨hcalls, by simp⟩

/-- C2, as amended, on a concrete run: a failed sync leaves the latch clear. -/
theorem Update_latch_holds_sync_result_witness :
    syncCalls (remoteStep (sampleCodec Json.null) offlineTick
      (sampleState "2024-01-01" ["/a/"])).events = 1 ∧
    ((remoteStep (sampleCodec Json.null) offlineTick
        (sampleState "2024-01-01" ["/a/"])).state.update_done = true ↔
      (UpdateSettingsFromServer (sampleCodec Json.null) offlineTick.http
        offlineTick.syncWriteOk offlineTick.promptYes (sampleState "2024-01-01" ["/a/"])).out =
        Outcome.ret true) :=
  (Update_latch_holds_sync_result (sampleCodec Json.null) [] offlineTick
    (sampleState "2024-01-01" ["/a/"])).2 (by decide) (by decide) (by decide)

/-- C2, as stated, fails: in a run of two gated ticks whose sync fails, the sync
is called on both ticks and the latch is still clear afterwards. -/
theorem Update_sync_retried_counterexample :
    syncCalls (runTicks (sampleCodec Json.null) [offlineTick, offlineTick]
      (sampleState "2024-01-01" ["/a/"])).events = 2 ∧
    (runTicks (sampleCodec Json.null) [offlineTick, offlineTick]
      (sampleState "2024-01-01" ["/a/"])).state.update_done = false ∧
    (runTicks (sampleCodec Json.null) [offlineTick, offlineTick]
      (sampleState "2024-01-01" ["/a/"])).out = Outcome.ret () :=
  ⟨by decide, by decide, by decide⟩

/-! ## Load: failure paths -/

/-- C7, at a failing input: a document that passes `ValidateSettings` but whose
`Block List` holds a non-string is reported as a failure by `Load` and by
`UpdateSettingsFromServer`, yet the in-memory document has become that
document, the cached release date is the new one and the cached block list is
the part read before the bad element. -/
theorem Load_adopts_part_of_rejected_document :
    ValidateSettings mixedBlockListDoc = true ∧
    (sampleState "2024-01-01" ["/a/"]).m_latest_release_date = "2024-01-01" ∧
    (sampleState "2024-01-01" ["/a/"]).m_block_list = ["/a/"] ∧
    CompareSettings (sampleState "2024-01-01" ["/a/"]).m_app_settings mixedBlockListDoc
      = false ∧
    (Load (sampleCodec mixedBlockListDoc) none mixedBlockListDoc
      (sampleState "2024-01-01" ["/a/"])).out = Outcome.ret false ∧
    CompareSettings (Load (sampleCodec mixedBlockListDoc) none mixedBlockListDoc
      (sampleState "2024-01-01" ["/a/"])).state.m_app_settings mixedBlockListDoc = true ∧
    (Load (sampleCodec mixedBlockListDoc) none mixedBlockListDoc
      (sampleState "2024-01-01" ["/a/"])).state.m_latest_release_date = "2024-02-01" ∧
    (Load (sampleCodec mixedBlockListDoc) none mixedBlockListDoc
      (sampleState "2024-01-01" ["/a/"])).state.m_block_list = ["/b/"] ∧
    (UpdateSettingsFromServer (sampleCodec mixedBlockListDoc) (some "") true true
      (sampleState "2024-01-01" ["/a/"])).out = Outcome.ret false ∧
    CompareSettings (UpdateSettingsFromServer (sampleCodec mixedBlockListDoc) (some "") true
      true (sampleState "2024-01-01" ["/a/"])).state.m_app_settings mixedBlockListDoc = true ∧
    (UpdateSettingsFromServer (sampleCodec mixedBlockListDoc) (some "") true true
      (sampleState "2024-01-01" ["/a/"])).state.m_latest_release_date = "2024-02-01" ∧
    (UpdateSettingsFromServer (sampleCodec mixedBlockListDoc) (some "") true true
      (sampleState "2024-01-01" ["/a/"])).state.m_block_list = ["/b/"] :=
  ⟨by decide, by decide, by decide, by decide, by decide, by decide, by decide, by decide,
    by decide, by decide, by decide, by decide⟩

/-- C8, at a failing input: in a fresh process (derived offsets zero) a settings
file whose document passes validation but whose `Cef Offsets` has no `x64`
entry makes `Load` end with an exception instead of a boolean. -/
theorem Load_raises_on_missing_offsets :
    ValidateSettings noOffsetsDoc = true ∧
    (Load (sampleCodec noOffsetsDoc) (some "") Json.null SettingsManager.initial).out =
      Outcome.raised :=
  ⟨by decide, by decide⟩

theorem at_isSome_shape (d : Json) (k : String) (v : Json) (h : d.at_ k = some v) :
    d.is_object = true ∧ d.empty = false ∧ d.contains k = true := by
  cases d with
  | object kvs =>
    cases kvs with
    | nil => simp [Json.at_, Assoc.find] at h
    | cons p rest =>
      simp only [Json.at_] at h
      simp [Json.is_object, Json.empty, Json.contains, h]
  | _ => simp [Json.at_] at h

/-- C9, as amended: `Load` of a supplied (non-null) document does not run
`ValidateSettings`; it returns true only if the document is a non-empty object
that has all five fields, with `Latest Release Date` a string. -/
theorem Load_document_true_only_if_readable (c : Codec) (file : Option String) (d : Json)
    (s : SettingsManager) (hnull : d.is_null = false)
    (h : (Load c file d s).out = Outcome.ret true) :
    d.is_object = true ∧ d.empty = false ∧
    (∃ date, d.at_ "Latest Release Date" = some (Json.string date)) ∧
    ∀ k ∈ requiredFields, d.contains k = true := by
  obtain ⟨date, blj, bl, zip, dev, cef, _, _, _, h1, h2, _, h4, h5, h6, _, _⟩ :=
    Load_ret_true c file d s hnull h
  obtain ⟨ho, he, hc1⟩ := at_isSome_shape d _ _ h1
  refine ⟨ho, he, ⟨date, h1⟩, ?_⟩
  intro k hk
  simp only [requiredFields, List.mem_cons, List.mem_singleton, List.not_mem_nil, or_false] at hk
  rcases hk with rfl | rfl | rfl | rfl | rfl
  · exact hc1
  · exact (at_isSome_shape d _ _ h2).2.2
  · exact (at_isSome_shape d _ _ h4).2.2
  · exact (at_isSome_shape d _ _ h5).2.2
  · exact (at_isSome_shape d _ _ h6).2.2

/-- C9, as amended, on a concrete document that `Load` accepts. -/
theorem Load_document_true_only_if_readable_witness :
    stringZipDoc.is_object = true ∧ stringZipDoc.empty = false ∧
    (∃ date, stringZipDoc.at_ "Latest Release Date" = some (Json.string date)) ∧
    ∀ k ∈ requiredFields, stringZipDoc.contains k = true :=
  Load_document_true_only_if_readable (sampleCodec stringZipDoc) none stringZipDoc
    (sampleState "2024-01-01" ["/a/"]) (by decide) (by decide)

/-- C9, as stated, fails: a supplied document whose `Zip Reader` is a string is
rejected by `ValidateSettings` and accepted by `Load`, which caches the string
as the zip reader settings. -/
theorem Load_accepts_unvalidated_counterexample :
    stringZipDoc.is_null = false ∧
    ValidateSettings stringZipDoc = false ∧
    (Load (sampleCodec stringZipDoc) none stringZipDoc
      (sampleState "2024-01-01" ["/a/"])).out = Outcome.ret true ∧
    CompareSettings (Load (sampleCodec stringZipDoc) none stringZipDoc
      (sampleState "2024-01-01" ["/a/"])).state.m_zip_reader (Json.string "zip") = true :=
  ⟨by decide, by decide, by decide, by decide⟩

/-! ## The static config file: properties -/

theorem Assoc.find_set_self {α : Type} (k : String) (v : α) (l : List (String × α)) :
    Assoc.find k (Assoc.set k v l) = some v := by
  induction l with
  | nil => simp [Assoc.set, Assoc.find]
  | cons p rest ih =>
    obtain ⟨l1, w⟩ := p
    by_cases h : l1 = k <;> simp [Assoc.set, Assoc.find, h, ih]

theorem Assoc.find_set_ne {α : Type} (k k2 : String) (v : α) (l : List (String × α))
    (hne : k2 ≠ k) : Assoc.find k2 (Assoc.set k v l) = Assoc.find k2 l := by
  induction l with
  | nil => simp [Assoc.set, Assoc.find, Ne.symm hne]
  | cons p rest ih =>
    obtain ⟨l1, w⟩ := p
    by_cases h : l1 = k
    · subst h
      simp [Assoc.set, Assoc.find, Ne.symm hne]
    · by_cases h2 : l1 = k2
      · subst h2
        simp [Assoc.set, Assoc.find, h]
      · simp [Assoc.set, Assoc.find, h, h2, ih]

theorem data_beq_one (V : String) : (V.data == ['1']) = decide (V = "1") := by
  have hiff : V = "1" ↔ V.data = ['1'] := by
    constructor
    · rintro rfl
      rfl
    · intro h
      exact String.ext h
  by_cases hv : V = "1"
  · simp [hv]
  · have : V.data ≠ ['1'] := fun h => hv (hiff.mpr h)
    simp [hv, this]

/-- The text of the line `K=V` for each of the five keys. -/
theorem line_data (K V : String) : (K ++ "=" ++ V).data = K.data ++ '=' :: V.data := by
  simp [String.data_append]

/-- A line `K=V` whose value holds no earlier key followed by `=` assigns the
flag `K` and nothing else. -/
theorem processLine_key_value (K V : String) (cfg : List (String × Bool))
    (hK : K ∈ configKeys)
    (hV : ∀ k ∈ earlierKeys K, wfind (k ++ "=").data V.data = none) :
    processLine (K ++ "=" ++ V) cfg = Assoc.set K (decide (V = "1")) cfg := by
  have e1 : "Block_Ads=".data = ['B','l','o','c','k','_','A','d','s','='] := by decide
  have e2 : "Block_Banner=".data = ['B','l','o','c','k','_','B','a','n','n','e','r','='] := by
    decide
  have e3 : "Enable_Developer=".data =
      ['E','n','a','b','l','e','_','D','e','v','e','l','o','p','e','r','='] := by decide
  have e4 : "Enable_Auto_Update=".data =
      ['E','n','a','b','l','e','_','A','u','t','o','_','U','p','d','a','t','e','='] := by decide
  have e5 : "Enable_Log=".data = ['E','n','a','b','l','e','_','L','o','g','='] := by decide
  have k1 : "Block_Ads".data = ['B','l','o','c','k','_','A','d','s'] := by decide
  have k2 : "Block_Banner".data = ['B','l','o','c','k','_','B','a','n','n','e','r'] := by decide
  have k3 : "Enable_Developer".data =
      ['E','n','a','b','l','e','_','D','e','v','e','l','o','p','e','r'] := by decide
  have k4 : "Enable_Auto_Update".data =
      ['E','n','a','b','l','e','_','A','u','t','o','_','U','p','d','a','t','e'] := by decide
  have k5 : "Enable_Log".data = ['E','n','a','b','l','e','_','L','o','g'] := by decide
  simp only [configKeys, List.mem_cons, List.mem_singleton, List.not_mem_nil, or_false] at hK
  unfold processLine valueIsOne
  rw [line_data, e1, e2, e3, e4, e5]
  rcases hK with rfl | rfl | rfl | rfl | rfl
  · rw [k1]
    simp [wfind, List.isPrefixOf, data_beq_one]
  · have h1 := hV "Block_Ads" (by decide)
    rw [show ("Block_Ads" ++ "=").data = ['B','l','o','c','k','_','A','d','s','='] by decide] at h1
    rw [k2]
    simp [wfind, List.isPrefixOf, data_beq_one, h1]
  · have h1 := hV "Block_Ads" (by decide)
    have h2 := hV "Block_Banner" (by decide)
    rw [show ("Block_Ads" ++ "=").data = ['B','l','o','c','k','_','A','d','s','='] by decide] at h1
    rw [show ("Block_Banner" ++ "=").data =
      ['B','l','o','c','k','_','B','a','n','n','e','r','='] by decide] at h2
    rw [k3]
    simp [wfind, List.isPrefixOf, data_beq_one, h1, h2]
  · have h1 := hV "Block_Ads" (by decide)
    have h2 := hV "Block_Banner" (by decide)
    have h3 := hV "Enable_Developer" (by decide)
    rw [show ("Block_Ads" ++ "=").data = ['B','l','o','c','k','_','A','d','s','='] by decide] at h1
    rw [show ("Block_Banner" ++ "=").data =
      ['B','l','o','c','k','_','B','a','n','n','e','r','='] by decide] at h2
    rw [show ("Enable_Developer" ++ "=").data =
      ['E','n','a','b','l','e','_','D','e','v','e','l','o','p','e','r','='] by decide] at h3
    rw [k4]
    simp [wfind, List.isPrefixOf, data_beq_one, h1, h2, h3]
  · have h1 := hV "Block_Ads" (by decide)
    have h2 := hV "Block_Banner" (by decide)
    have h3 := hV "Enable_Developer" (by decide)
    have h4 := hV "Enable_Auto_Update" (by decide)
    rw [show ("Block_Ads" ++ "=").data = ['B','l','o','c','k','_','A','d','s','='] by decide] at h1
    rw [show ("Block_Banner" ++ "=").data =
      ['B','l','o','c','k','_','B','a','n','n','e','r','='] by decide] at h2
    rw [show ("Enable_Developer" ++ "=").data =
      ['E','n','a','b','l','e','_','D','e','v','e','l','o','p','e','r','='] by decide] at h3
    rw [show ("Enable_Auto_Update" ++ "=").data =
      ['E','n','a','b','l','e','_','A','u','t','o','_','U','p','d','a','t','e','='] by decide] at h4
    rw [k5]
    simp [wfind, List.isPrefixOf, data_beq_one, h1, h2, h3, h4]

/-- C10, as amended: for a line made of a known key `K`, an `=` and a value `V`
in which no key tested before `K` occurs followed by `=`, processing the line
sets flag `K` to true when `V` is exactly `1` and to false otherwise, and leaves
the other four flags as they were. -/
theorem processLine_sets_only_its_flag (K V : String) (cfg : List (String × Bool))
    (hK : K ∈ configKeys)
    (hV : ∀ k ∈ earlierKeys K, wfind (k ++ "=").data V.data = none) :
    Assoc.find K (processLine (K ++ "=" ++ V) cfg) = some (decide (V = "1")) ∧
    ∀ k ∈ configKeys, k ≠ K →
      Assoc.find k (processLine (K ++ "=" ++ V) cfg) = Assoc.find k cfg := by
  rw [processLine_key_value K V cfg hK hV]
  exact ⟨Assoc.find_set_self K _ cfg, fun k _ hne => Assoc.find_set_ne K k _ cfg hne⟩

/-- C10, as amended, on the line `Enable_Log=1` read over the default flags. -/
theorem processLine_sets_only_its_flag_witness :
    Assoc.find "Enable_Log" (processLine ("Enable_Log" ++ "=" ++ "1") (SyncConfigFile none []))
      = some (decide ("1" = "1")) ∧
    ∀ k ∈ configKeys, k ≠ "Enable_Log" →
      Assoc.find k (processLine ("Enable_Log" ++ "=" ++ "1") (SyncConfigFile none [])) =
        Assoc.find k (SyncConfigFile none []) :=
  processLine_sets_only_its_flag "Enable_Log" "1" (SyncConfigFile none []) (by decide)
    (by decide)

/-- C10, as stated, fails: the line `Block_Banner=Block_Ads=1` is the key
`Block_Banner`, an `=` and the value `Block_Ads=1`; read after the lines
`Block_Ads=1` and `Block_Banner=1` it leaves `Block_Banner` true and sets the
other flag `Block_Ads` to false. -/
theorem processLine_value_with_key_counterexample :
    "Block_Banner" ++ "=" ++ "Block_Ads=1" = "Block_Banner=Block_Ads=1" ∧
    Assoc.find "Block_Banner" (SyncConfigFile (some ["Block_Ads=1", "Block_Banner=1"]) [])
      = some true ∧
    Assoc.find "Block_Ads" (SyncConfigFile (some ["Block_Ads=1", "Block_Banner=1"]) [])
      = some true ∧
    Assoc.find "Block_Banner" (processLine "Block_Banner=Block_Ads=1"
      (SyncConfigFile (some ["Block_Ads=1", "Block_Banner=1"]) [])) = some true ∧
    Assoc.find "Block_Ads" (processLine "Block_Banner=Block_Ads=1"
      (SyncConfigFile (some ["Block_Ads=1", "Block_Banner=1"]) [])) = some false :=
  ⟨by decide, by decide, by decide, by decide, by decide⟩

theorem mem_of_isPrefixOf (pat l : List Char) (h : pat.isPrefixOf l = true) :
    ∀ ch ∈ pat, ch ∈ l := by
  induction pat generalizing l with
  | nil => simp
  | cons p ps ih =>
    cases l with
    | nil => simp [List.isPrefixOf] at h
    | cons x xs =>
      simp only [List.isPrefixOf, Bool.and_eq_true, beq_iff_eq] at h
      intro ch hch
      rcases List.mem_cons.mp hch with rfl | hmem
      · simp [h.1]
      · exact List.mem_cons_of_mem _ (ih xs h.2 ch hmem)

/-- A pattern that is found in a line has all its characters in the line. -/
theorem mem_of_wfind_isSome (pat l : List Char) (h : (wfind pat l).isSome = true) :
    ∀ ch ∈ pat, ch ∈ l := by
  induction l with
  | nil =>
    cases pat with
    | nil => simp
    | cons p ps => simp [wfind] at h
  | cons x xs ih =>
    unfold wfind at h
    by_cases hp : pat.isPrefixOf (x :: xs) = true
    · exact mem_of_isPrefixOf pat (x :: xs) hp
    · simp [hp] at h
      intro ch hch
      exact List.mem_cons_of_mem _ (ih h ch hch)

theorem wfind_none_of_not_mem (pat l : List Char) (ch : Char) (hp : ch ∈ pat) (hl : ch ∉ l) :
    wfind pat l = none := by
  cases h : wfind pat l with
  | none => rfl
  | some i => exact absurd (mem_of_wfind_isSome pat l (by simp [h]) ch hp) hl

/-- A line in which no known key followed by `=` occurs leaves the flags as they
were. -/
theorem processLine_of_no_key (line : String) (cfg : List (String × Bool))
    (h : ∀ k ∈ configKeys, wfind (k ++ "=").data line.data = none) :
    processLine line cfg = cfg := by
  have h1 := h "Block_Ads" (by decide)
  have h2 := h "Block_Banner" (by decide)
  have h3 := h "Enable_Developer" (by decide)
  have h4 := h "Enable_Auto_Update" (by decide)
  have h5 := h "Enable_Log" (by decide)
  rw [show ("Block_Ads" ++ "=") = "Block_Ads=" by decide] at h1
  rw [show ("Block_Banner" ++ "=") = "Block_Banner=" by decide] at h2
  rw [show ("Enable_Developer" ++ "=") = "Enable_Developer=" by decide] at h3
  rw [show ("Enable_Auto_Update" ++ "=") = "Enable_Auto_Update=" by decide] at h4
  rw [show ("Enable_Log" ++ "=") = "Enable_Log=" by decide] at h5
  simp [processLine, h1, h2, h3, h4, h5]

/-- C11, as amended: a line in which none of the five known keys occurs followed
by `=`, at any position, leaves every flag as it was; a line without `=` is such
a line.  Processing a line is a total function, so no error is raised. -/
theorem processLine_ignores_lines_without_key (line : String)
    (cfg : List (String × Bool)) :
    ((∀ k ∈ configKeys, wfind (k ++ "=").data line.data = none) →
      processLine line cfg = cfg) ∧
    ('=' ∉ line.data → processLine line cfg = cfg) := by
  refine ⟨processLine_of_no_key line cfg, fun hno => processLine_of_no_key line cfg ?_⟩
  intro k _
  exact wfind_none_of_not_mem _ _ '=' (by simp [String.data_append]) hno

/-- C11, as amended, on a line without `=`. -/
theorem processLine_ignores_lines_without_key_witness :
    processLine "Block_Ads" (SyncConfigFile (some ["Block_Ads=1"]) []) =
      SyncConfigFile (some ["Block_Ads=1"]) [] :=
  (processLine_ignores_lines_without_key "Block_Ads"
    (SyncConfigFile (some ["Block_Ads=1"]) [])).2 (by decide)

/-- C11, as stated, fails: in the line `My_Block_Ads=0` the key before the first
`=` is `My_Block_Ads`, which is none of the five keys and only contains one;
read after the line `Block_Ads=1` it sets the flag `Block_Ads` to false. -/
theorem processLine_longer_key_counterexample :
    Assoc.find "Block_Ads" (SyncConfigFile (some ["Block_Ads=1"]) []) = some true ∧
    Assoc.find "Block_Ads"
      (processLine "My_Block_Ads=0" (SyncConfigFile (some ["Block_Ads=1"]) [])) = some false :=
  by decide

/-- C17: when `config.ini` cannot be opened, `SyncConfigFile` defines
`Block_Ads`, `Block_Banner`, `Enable_Developer` and `Enable_Auto_Update` as true
and `Enable_Log` as false, whatever the flags held before; from the empty flags
of a fresh process the result is exactly these five entries. -/
theorem SyncConfigFile_absent_defaults (cfg : List (String × Bool)) :
    Assoc.find "Block_Ads" (SyncConfigFile none cfg) = some true ∧
    Assoc.find "Block_Banner" (SyncConfigFile none cfg) = some true ∧
    Assoc.find "Enable_Developer" (SyncConfigFile none cfg) = some true ∧
    Assoc.find "Enable_Auto_Update" (SyncConfigFile none cfg) = some true ∧
    Assoc.find "Enable_Log" (SyncConfigFile none cfg) = some false ∧
    SyncConfigFile none [] =
      [("Block_Ads", true), ("Block_Banner", true), ("Enable_Developer", true),
        ("Enable_Auto_Update", true), ("Enable_Log", false)] := by
  unfold SyncConfigFile
  refine ⟨?_, ?_, ?_, ?_, ?_, by decide⟩
  · rw [Assoc.find_set_ne _ _ _ _ (by decide), Assoc.find_set_ne _ _ _ _ (by decide),
      Assoc.find_set_ne _ _ _ _ (by decide), Assoc.find_set_ne _ _ _ _ (by decide),
      Assoc.find_set_self]
  · rw [Assoc.find_set_ne _ _ _ _ (by decide), Assoc.find_set_ne _ _ _ _ (by decide),
      Assoc.find_set_ne _ _ _ _ (by decide), Assoc.find_set_self]
  · rw [Assoc.find_set_ne _ _ _ _ (by decide), Assoc.find_set_ne _ _ _ _ (by decide),
      Assoc.find_set_self]
  · rw [Assoc.find_set_ne _ _ _ _ (by decide), Assoc.find_set_self]
  · rw [Assoc.find_set_self]

/-- C12, at failing inputs: an empty `config.ini`, one with only unrecognized
lines and one that sets only `Block_Ads` leave `Enable_Log` undefined, so the
lookup of line 11 throws and `Init` ends with an exception; a file that sets
only `Enable_Log` leaves `Enable_Auto_Update` undefined, so the lookup of the
poll tick throws. -/
theorem SyncConfigFile_leaves_flags_undefined :
    SyncConfigFile (some []) [] = [] ∧
    Assoc.find "Enable_Log" (SyncConfigFile (some ["; no flags here", ""]) []) = none ∧
    Assoc.find "Enable_Log" (SyncConfigFile (some ["Block_Ads=1"]) []) = none ∧
    (Init (sampleCodec (sampleDoc "2024-01-01" ["/a/"])) (some []) (some "") true
      SettingsManager.initial).out = Outcome.raised ∧
    (Init (sampleCodec (sampleDoc "2024-01-01" ["/a/"])) (some ["Block_Ads=1"]) (some "") true
      SettingsManager.initial).out = Outcome.raised ∧
    Assoc.find "Enable_Auto_Update" (SyncConfigFile (some ["Enable_Log=1"]) []) = none ∧
    (UpdateTick (sampleCodec (sampleDoc "2024-01-01" ["/a/"])) offlineTick
      { sampleState "2024-01-01" ["/a/"] with
        m_config := SyncConfigFile (some ["Enable_Log=1"]) [] }).out = Outcome.raised :=
  ⟨by decide, by decide, by decide, by decide, by decide, by decide, by decide⟩

/-! ## Save: properties -/

theorem at_setKey_self (j : Json) (k : String) (v : Json) :
    (j.setKey k v).at_ k = some v := by
  cases j <;> simp [Json.setKey, Json.at_, Assoc.find, Assoc.find_set_self]

theorem at_setKey_ne (j : Json) (k k2 : String) (v : Json) (hne : k2 ≠ k) :
    (j.setKey k v).at_ k2 = j.at_ k2 := by
  cases j <;> simp [Json.setKey, Json.at_, Assoc.find, Assoc.find_set_ne, hne, Ne.symm hne]

/-- The five fields of the document `Save` builds. -/
theorem savedDocument_fields (s : SettingsManager) :
    (savedDocument s).at_ "Latest Release Date" = some (Json.string s.m_latest_release_date) ∧
    (savedDocument s).at_ "Block List" = some (jsonOfBlockList builtinBlockList) ∧
    (savedDocument s).at_ "Zip Reader" = some s.m_zip_reader ∧
    (savedDocument s).at_ "Developer" = some s.m_developer ∧
    (savedDocument s).at_ "Cef Offsets" = some s.m_cef_offsets := by
  unfold savedDocument
  refine ⟨?_, ?_, ?_, ?_, ?_⟩
  · rw [at_setKey_ne _ _ _ _ (by decide), at_setKey_ne _ _ _ _ (by decide),
      at_setKey_ne _ _ _ _ (by decide), at_setKey_ne _ _ _ _ (by decide), at_setKey_self]
  · rw [at_setKey_ne _ _ _ _ (by decide), at_setKey_ne _ _ _ _ (by decide),
      at_setKey_ne _ _ _ _ (by decide), at_setKey_self]
  · rw [at_setKey_ne _ _ _ _ (by decide), at_setKey_ne _ _ _ _ (by decide), at_setKey_self]
  · rw [at_setKey_ne _ _ _ _ (by decide), at_setKey_self]
  · rw [at_setKey_self]

theorem Save_state (c : Codec) (writeOk : Bool) (s : SettingsManager) :
    (Save c writeOk s).state =
      { s with m_block_list := builtinBlockList, m_app_settings := savedDocument s } ∧
    (Save c writeOk s).out = Outcome.ret writeOk := by
  unfold Save
  cases writeOk <;> simp

/-- C13: after `Save` the cached block list and the `Block List` of the document
are the built-in list, the other four fields of the document are the cached
release date, zip reader, developer and offsets settings (which `Save` leaves as
they were), the one text handed to the file writer is `dump(document, 2)`, and
`Save` returns whether the write succeeded. -/
theorem Save_writes_builtin_block_list (c : Codec) (writeOk : Bool) (s : SettingsManager) :
    (Save c writeOk s).state.m_block_list =
      ["/ads/", "/ad-logic/", "/gabo-receiver-service/"] ∧
    (Save c writeOk s).state.m_app_settings.at_ "Block List" =
      some (jsonOfBlockList ["/ads/", "/ad-logic/", "/gabo-receiver-service/"]) ∧
    (Save c writeOk s).state.m_app_settings.at_ "Latest Release Date" =
      some (Json.string s.m_latest_release_date) ∧
    (Save c writeOk s).state.m_app_settings.at_ "Zip Reader" = some s.m_zip_reader ∧
    (Save c writeOk s).state.m_app_settings.at_ "Developer" = some s.m_developer ∧
    (Save c writeOk s).state.m_app_settings.at_ "Cef Offsets" = some s.m_cef_offsets ∧
    ((Save c writeOk s).state.m_latest_release_date = s.m_latest_release_date ∧
      (Save c writeOk s).state.m_zip_reader = s.m_zip_reader ∧
      (Save c writeOk s).state.m_developer = s.m_developer ∧
      (Save c writeOk s).state.m_cef_offsets = s.m_cef_offsets) ∧
    (Save c writeOk s).events.filter Event.isWrite =
      [Event.writeFile s.m_app_settings_file
        (c.dump (Save c writeOk s).state.m_app_settings 2)] ∧
    ((Save c writeOk s).out = Outcome.ret true ↔ writeOk = true) ∧
    ((Save c writeOk s).out = Outcome.ret false ↔ writeOk = false) := by
  obtain ⟨h1, h2, h3, h4, h5⟩ := savedDocument_fields s
  obtain ⟨hst, hout⟩ := Save_state c writeOk s
  rw [hst, hout]
  refine ⟨rfl, h2, h1, h3, h4, h5, ⟨rfl, rfl, rfl, rfl⟩, ?_, by simp, by simp⟩
  unfold Save
  cases writeOk <;> simp [Event.isWrite]

/-! ## Round trip through Save and Load -/

theorem Assoc.set_eq_self {α : Type} (k : String) (v : α) (l : List (String × α))
    (h : Assoc.find k l = some v) : Assoc.set k v l = l := by
  induction l with
  | nil => simp [Assoc.find] at h
  | cons p rest ih =>
    obtain ⟨l1, w⟩ := p
    by_cases hk : l1 = k
    · simp only [Assoc.find, hk, if_true, Option.some.injEq] at h
      simp [Assoc.set, hk, h]
    · simp only [Assoc.find, hk, if_false] at h
      simp [Assoc.set, hk, ih h]

theorem setKey_eq_self (j : Json) (k : String) (v : Json) (h : j.at_ k = some v) :
    j.setKey k v = j := by
  cases j with
  | object kvs => simp [Json.setKey, Assoc.set_eq_self k v kvs h]
  | _ => simp [Json.at_] at h

/-- The document `Save` builds is the document itself when its five fields
already hold the cached values and the built-in block list. -/
theorem savedDocument_eq_self (s : SettingsManager)
    (h1 : s.m_app_settings.at_ "Latest Release Date" = some (Json.string s.m_latest_release_date))
    (h2 : s.m_app_settings.at_ "Block List" = some (jsonOfBlockList builtinBlockList))
    (h3 : s.m_app_settings.at_ "Zip Reader" = some s.m_zip_reader)
    (h4 : s.m_app_settings.at_ "Developer" = some s.m_developer)
    (h5 : s.m_app_settings.at_ "Cef Offsets" = some s.m_cef_offsets) :
    savedDocument s = s.m_app_settings := by
  unfold savedDocument
  rw [setKey_eq_self _ _ _ h1, setKey_eq_self _ _ _ h2, setKey_eq_self _ _ _ h3,
    setKey_eq_self _ _ _ h4, setKey_eq_self _ _ _ h5]

theorem populate_m_app_settings (s : SettingsManager) (evs : List Event) :
    (populate s evs).state.m_app_settings = s.m_app_settings := by
  rcases populate_cases s evs with ⟨s1, hp, hs⟩ | ⟨date, blj, bl, zip, dev, cef, _, _, _, _, _, _, hp⟩
  · rw [hp]
    exact hs
  · obtain ⟨⟨o1, o2, o3, hst⟩, _, _⟩ := deriveOffsets_frame (populated s date bl zip dev cef) evs
    rw [hp, hst]
    rfl

/-- Loading a text that parses leaves the parsed document in memory, whether or
not the load succeeds. -/
theorem Load_disk_m_app_settings (c : Codec) (text : String) (doc : Json)
    (s : SettingsManager) (hparse : c.parse text = some doc) :
    (Load c (some text) Json.null s).state.m_app_settings = doc := by
  unfold Load
  simp only [Json.is_null, if_true, hparse]
  split_ifs
  · rfl
  · rw [populate_m_app_settings]

/-- C14, as amended: saving with `Save` and loading the written text back leaves
in memory the document `Save` wrote, that is the former document with its five
fields set to the cached values and to the built-in block list; this is the
former document itself when its fields agreed with the cached values and the
cached block list was the built-in list.  The codec is only asked to parse the
written text back to the written document. -/
theorem Save_then_Load_round_trip (c : Codec) (s : SettingsManager) (writeOk : Bool)
    (hcodec : c.parse (c.dump (savedDocument s) 2) = some (savedDocument s)) :
    (Load c (some (c.dump (Save c writeOk s).state.m_app_settings 2)) Json.null
      (Save c writeOk s).state).state.m_app_settings = savedDocument s ∧
    (Consistent s → s.m_block_list = builtinBlockList →
      (Load c (some (c.dump (Save c writeOk s).state.m_app_settings 2)) Json.null
        (Save c writeOk s).state).state.m_app_settings = s.m_app_settings) := by
  have hdoc : (Save c writeOk s).state.m_app_settings = savedDocument s := by
    rw [(Save_state c writeOk s).1]
  have hload := Load_disk_m_app_settings c (c.dump (savedDocument s) 2) (savedDocument s)
    (Save c writeOk s).state hcodec
  rw [hdoc]
  refine ⟨hload, ?_⟩
  rintro ⟨h1, h2, h3, h4, h5⟩ hb
  rw [hb] at h2
  rw [hload, savedDocument_eq_self s h1 h2 h3 h4 h5]

/-- C14, as amended, on a state that holds the built-in block list. -/
theorem Save_then_Load_round_trip_witness :
    (Load (sampleCodec (savedDocument (sampleState "2024-01-01" builtinBlockList)))
      (some ((sampleCodec (savedDocument (sampleState "2024-01-01" builtinBlockList))).dump
        (Save (sampleCodec (savedDocument (sampleState "2024-01-01" builtinBlockList))) true
          (sampleState "2024-01-01" builtinBlockList)).state.m_app_settings 2)) Json.null
      (Save (sampleCodec (savedDocument (sampleState "2024-01-01" builtinBlockList))) true
        (sampleState "2024-01-01" builtinBlockList)).state).state.m_app_settings =
      (sampleState "2024-01-01" builtinBlockList).m_app_settings :=
  (Save_then_Load_round_trip
    (sampleCodec (savedDocument (sampleState "2024-01-01" builtinBlockList)))
    (sampleState "2024-01-01" builtinBlockList) true rfl).2
    ⟨rfl, rfl, rfl, rfl, rfl⟩ rfl

set_option maxRecDepth 20000 in
/-- C14, as stated, fails: the store holds a valid document whose block list is
`/a/`, in agreement with the cached fields; the codec parses the saved text back
to the saved document; after `Save` and `Load` the document in memory is not
deep-equal to the former one, its block list being the built-in list. -/
theorem Save_then_Load_counterexample :
    ValidateSettings (sampleState "2024-01-01" ["/a/"]).m_app_settings = true ∧
    ((listCodec [savedDocument (sampleState "2024-01-01" ["/a/"])]).parse
      ((listCodec [savedDocument (sampleState "2024-01-01" ["/a/"])]).dump
        (savedDocument (sampleState "2024-01-01" ["/a/"])) 2)).map
      (fun d => d.beq (savedDocument (sampleState "2024-01-01" ["/a/"]))) = some true ∧
    (Load (listCodec [savedDocument (sampleState "2024-01-01" ["/a/"])])
      (some ((listCodec [savedDocument (sampleState "2024-01-01" ["/a/"])]).dump
        (Save (listCodec [savedDocument (sampleState "2024-01-01" ["/a/"])]) true
          (sampleState "2024-01-01" ["/a/"])).state.m_app_settings 2)) Json.null
      (Save (listCodec [savedDocument (sampleState "2024-01-01" ["/a/"])]) true
        (sampleState "2024-01-01" ["/a/"])).state).out = Outcome.ret true ∧
    CompareSettings
      (Load (listCodec [savedDocument (sampleState "2024-01-01" ["/a/"])])
        (some ((listCodec [savedDocument (sampleState "2024-01-01" ["/a/"])]).dump
          (Save (listCodec [savedDocument (sampleState "2024-01-01" ["/a/"])]) true
            (sampleState "2024-01-01" ["/a/"])).state.m_app_settings 2)) Json.null
        (Save (listCodec [savedDocument (sampleState "2024-01-01" ["/a/"])]) true
          (sampleState "2024-01-01" ["/a/"])).state).state.m_app_settings
      (sampleState "2024-01-01" ["/a/"]).m_app_settings = false :=
  by decide

/-! ## The derived offsets -/

/-- C15, at a failing input: on a 32-bit build the architecture is `x32`, yet
the first successful load caches the three integers of the entry `x64` of
`Cef Offsets` (48, 72, 112) and not those of the entry `x32` (24, 36, 56). -/
theorem Load_reads_x64_on_every_build :
    m_architecture false = "x32" ∧
    ValidateSettings twoArchDoc = true ∧
    offsetEntry twoArchDoc (m_architecture false) "cef_request_t_get_url" = some 24 ∧
    offsetEntry twoArchDoc (m_architecture false) "cef_zip_reader_t_get_file_name" = some 36 ∧
    offsetEntry twoArchDoc (m_architecture false) "cef_zip_reader_t_read_file" = some 56 ∧
    (Load (sampleCodec twoArchDoc) (some "") Json.null SettingsManager.initial).out =
      Outcome.ret true ∧
    (Load (sampleCodec twoArchDoc) (some "") Json.null SettingsManager.initial).state.offsets =
      (48, 72, 112) :=
  by decide

theorem deriveOffsets_of_derived (s : SettingsManager) (evs : List Event)
    (h : OffsetsDerived s) : deriveOffsets s evs = ⟨Outcome.ret true, s, evs⟩ := by
  obtain ⟨h1, h2, h3⟩ := h
  simp [deriveOffsets, h1, h2, h3]

/-- Whatever `populate` does, it ends in its handler or in the derivation of the
offsets, from a state that differs from the first in the five cached fields
only. -/
theorem populate_shape (s : SettingsManager) (evs : List Event) :
    ∃ date bl zip dev cef,
      populate s evs = retrieveFailed (populated s date bl zip dev cef) evs ∨
      populate s evs = deriveOffsets (populated s date bl zip dev cef) evs := by
  unfold populate
  cases h1 : (s.m_app_settings.at_ "Latest Release Date").bind Json.get_string with
  | none =>
    exact ⟨s.m_latest_release_date, s.m_block_list, s.m_zip_reader, s.m_developer,
      s.m_cef_offsets, Or.inl rfl⟩
  | some date =>
    simp only []
    cases h2 : s.m_app_settings.at_ "Block List" with
    | none =>
      exact ⟨date, s.m_block_list, s.m_zip_reader, s.m_developer, s.m_cef_offsets, Or.inl rfl⟩
    | some blj =>
      simp only []
      cases h3 : (pushBlockList blj blj.size 0 []).2 with
      | false =>
        simp only [if_true]
        exact ⟨date, (pushBlockList blj blj.size 0 []).1, s.m_zip_reader, s.m_developer,
          s.m_cef_offsets, Or.inl rfl⟩
      | true =>
        simp only [Bool.true_eq_false, if_false]
        cases h4 : s.m_app_settings.at_ "Zip Reader" with
        | none =>
          exact ⟨date, (pushBlockList blj blj.size 0 []).1, s.m_zip_reader, s.m_developer,
            s.m_cef_offsets, Or.inl rfl⟩
        | some zip =>
          simp only []
          cases h5 : s.m_app_settings.at_ "Developer" with
          | none =>
            exact ⟨date, (pushBlockList blj blj.size 0 []).1, zip, s.m_developer,
              s.m_cef_offsets, Or.inl rfl⟩
          | some dev =>
            simp only []
            cases h6 : s.m_app_settings.at_ "Cef Offsets" with
            | none =>
              exact ⟨date, (pushBlockList blj blj.size 0 []).1, zip, dev, s.m_cef_offsets,
                Or.inl rfl⟩
            | some cef =>
              exact ⟨date, (pushBlockList blj blj.size 0 []).1, zip, dev, cef, Or.inr rfl⟩

theorem populate_offsets (s : SettingsManager) (evs : List Event) (h : OffsetsDerived s) :
    (populate s evs).state.offsets = s.offsets := by
  obtain ⟨date, bl, zip, dev, cef, hp | hp⟩ := populate_shape s evs
  · rw [hp]
    rfl
  · rw [hp, deriveOffsets_of_derived _ _ (by exact h)]
    rfl

theorem Load_offsets (c : Codec) (file : Option String) (settings : Json)
    (s : SettingsManager) (h : OffsetsDerived s) :
    (Load c file settings s).state.offsets = s.offsets := by
  unfold Load
  cases settings.is_null with
  | false =>
    simp only [Bool.false_eq_true, if_false]
    rw [populate_offsets _ _ (by exact h)]
    rfl
  | true =>
    simp only [if_true]
    cases file with
    | none => rfl
    | some buffer =>
      simp only []
      cases c.parse buffer with
      | none => rfl
      | some doc =>
        simp only []
        cases (ValidateSettingsLog doc).1 with
        | false => rfl
        | true =>
          simp only [Bool.true_eq_false, if_false]
          rw [populate_offsets _ _ (by exact h)]
          rfl

theorem Save_offsets (c : Codec) (writeOk : Bool) (s : SettingsManager) :
    (Save c writeOk s).state.offsets = s.offsets := by
  rw [(Save_state c writeOk s).1]
  rfl

theorem UpdateSettingsFromServer_offsets (c : Codec) (http : Option String)
    (writeOk promptYes : Bool) (s : SettingsManager) (h : OffsetsDerived s) :
    (UpdateSettingsFromServer c http writeOk promptYes s).state.offsets = s.offsets := by
  unfold UpdateSettingsFromServer
  cases http with
  | none => simp [syncCaught]
  | some text =>
    cases hp : c.parse text with
    | none => simp [hp, syncCaught]
    | some r =>
      have hl := Load_offsets c none r s h
      simp only [hp]
      cases hv : (ValidateSettingsLog r).1 with
      | false => simp [hv]
      | true =>
        simp only [hv, Bool.true_eq_false, if_false]
        cases hc : CompareSettings r s.m_app_settings with
        | true => simp [hc]
        | false =>
          simp only [hc, if_true]
          cases hd : (r.at_ "Latest Release Date").bind Json.get_string with
          | none => simp [hd, syncCaught]
          | some date =>
            simp only [hd]
            cases hout : (Load c none r s).out with
            | raised => simpa [hout, syncCaught] using hl
            | ret b =>
              cases b with
              | false => simpa [hout] using hl
              | true =>
                cases writeOk <;> cases hf : forcedUpdate s date <;> cases promptYes <;>
                  simpa [hout, hf, SettingsManager.offsets] using hl

/-- The store of the cached values touches nothing but the document. -/
theorem storeCached_shape (s : SettingsManager) :
    ∃ d, (storeCached s).1 = { s with m_app_settings := d } := by
  unfold storeCached
  split
  · exact ⟨s.m_app_settings, rfl⟩
  · split
    · exact ⟨_, rfl⟩
    · split
      · exact ⟨_, rfl⟩
      · split
        · exact ⟨_, rfl⟩
        · split <;> exact ⟨_, rfl⟩

/-- The drift step touches nothing but the document and the dirty flag. -/
theorem driftStep_shape (c : Codec) (w : Bool) (s : SettingsManager) :
    ∃ d b, (driftStep c w s).state = { s with m_app_settings := d, m_settings_changed := b } := by
  unfold driftStep
  cases hd : driftChanged s with
  | none => exact ⟨s.m_app_settings, s.m_settings_changed, rfl⟩
  | some changed =>
    cases changed with
    | false => exact ⟨s.m_app_settings, false, rfl⟩
    | true =>
      simp only [if_true]
      obtain ⟨d, hs⟩ := storeCached_shape { s with m_settings_changed := true }
      cases hst : storeCached { s with m_settings_changed := true } with
      | mk s2 ok =>
        rw [hst] at hs
        simp only at hs
        subst hs
        cases ok <;> cases w <;> exact ⟨d, true, rfl⟩

theorem remoteStep_offsets (c : Codec) (inp : TickInput) (s : SettingsManager)
    (h : OffsetsDerived s) : (remoteStep c inp s).state.offsets = s.offsets := by
  have hu := UpdateSettingsFromServer_offsets c inp.http inp.syncWriteOk inp.promptYes s h
  unfold remoteStep
  cases Assoc.find "Enable_Auto_Update" s.m_config with
  | none => rfl
  | some flag =>
    cases flag <;> cases inp.hasError <;> cases hdone : s.update_done <;>
      simp only [Bool.and_self, Bool.and_true, Bool.and_false, Bool.false_eq_true, if_false,
        if_true, Bool.true_eq_false]
    cases hout : (UpdateSettingsFromServer c inp.http inp.syncWriteOk inp.promptYes s).out <;>
      simpa [SettingsManager.offsets] using hu

theorem UpdateTick_offsets (c : Codec) (inp : TickInput) (s : SettingsManager)
    (h : OffsetsDerived s) : (UpdateTick c inp s).state.offsets = s.offsets := by
  obtain ⟨d, b, hs⟩ := driftStep_shape c inp.driftWriteOk s
  have hd : OffsetsDerived (driftStep c inp.driftWriteOk s).state := by
    rw [hs]
    exact h
  have ho : (driftStep c inp.driftWriteOk s).state.offsets = s.offsets := by
    rw [hs]
    rfl
  unfold UpdateTick
  cases hout : (driftStep c inp.driftWriteOk s).out with
  | raised => simpa [hout] using ho
  | ret u =>
    simp only [hout]
    rw [← ho]
    exact remoteStep_offsets c inp _ hd

theorem applyOp_offsets (c : Codec) (op : Op) (s : SettingsManager) (h : OffsetsDerived s) :
    (applyOp c op s).offsets = s.offsets := by
  cases op with
  | load file settings => exact Load_offsets c file settings s h
  | save writeOk => exact Save_offsets c writeOk s
  | tick inp => exact UpdateTick_offsets c inp s h
  | sync http writeOk promptYes =>
    exact UpdateSettingsFromServer_offsets c http writeOk promptYes s h

theorem OffsetsDerived_of_offsets_eq (s t : SettingsManager) (h : OffsetsDerived s)
    (ht : t.offsets = s.offsets) : OffsetsDerived t := by
  simp only [SettingsManager.offsets, Prod.mk.injEq] at ht
  obtain ⟨h1, h2, h3⟩ := ht
  unfold OffsetsDerived
  rw [h1, h2, h3]
  exact h

/-- C16: once all three derived offsets are non-zero, no sequence of loads (from
disk or from a supplied document, whatever they return), saves, poll ticks and
remote syncs changes any of them, whatever `Cef Offsets` the documents carry. -/
theorem offsets_never_rederived (c : Codec) (ops : List Op) (s : SettingsManager)
    (h : OffsetsDerived s) :
    (applyOps c ops s).m_cef_request_t_get_url_offset = s.m_cef_request_t_get_url_offset ∧
    (applyOps c ops s).m_cef_zip_reader_t_get_file_name_offset =
      s.m_cef_zip_reader_t_get_file_name_offset ∧
    (applyOps c ops s).m_cef_zip_reader_t_read_file_offset =
      s.m_cef_zip_reader_t_read_file_offset := by
  have key : ∀ (ops : List Op) (t : SettingsManager), OffsetsDerived t →
      (applyOps c ops t).offsets = t.offsets := by
    intro ops
    induction ops with
    | nil => intro t _; rfl
    | cons op rest ih =>
      intro t ht
      have h1 := applyOp_offsets c op t ht
      have h2 := ih (applyOp c op t) (OffsetsDerived_of_offsets_eq t _ ht h1)
      show (applyOps c rest (applyOp c op t)).offsets = t.offsets
      rw [h2, h1]
  have := key ops s h
  simpa [SettingsManager.offsets] using this

/-- C16 on a concrete run: offsets 48, 72, 112 survive a load of a document with
another table, a save, a tick and a sync. -/
theorem offsets_never_rederived_witness :
    (applyOps (sampleCodec twoArchDoc)
      [Op.load none noOffsetsDoc, Op.save true, Op.tick offlineTick,
        Op.sync (some "") true true, Op.load (some "") Json.null]
      (sampleState "2024-01-01" ["/a/"])).m_cef_request_t_get_url_offset = 48 ∧
    (applyOps (sampleCodec twoArchDoc)
      [Op.load none noOffsetsDoc, Op.save true, Op.tick offlineTick,
        Op.sync (some "") true true, Op.load (some "") Json.null]
      (sampleState "2024-01-01" ["/a/"])).m_cef_zip_reader_t_get_file_name_offset = 72 ∧
    (applyOps (sampleCodec twoArchDoc)
      [Op.load none noOffsetsDoc, Op.save true, Op.tick offlineTick,
        Op.sync (some "") true true, Op.load (some "") Json.null]
      (sampleState "2024-01-01" ["/a/"])).m_cef_zip_reader_t_read_file_offset = 112 :=
  offsets_never_rederived (sampleCodec twoArchDoc)
    [Op.load none noOffsetsDoc, Op.save true, Op.tick offlineTick,
      Op.sync (some "") true true, Op.load (some "") Json.null]
    (sampleState "2024-01-01" ["/a/"]) (by unfold OffsetsDerived; decide)

/-! ## The drift step: properties -/

theorem fieldDiffers_eq_some_false (doc : Json) (k : String) (cached : Json) :
    fieldDiffers doc k cached = some false ↔ doc.at_ k = some cached := by
  unfold fieldDiffers
  cases h : doc.at_ k with
  | none => simp
  | some v => simp [Json.beq_iff_eq]

theorem fieldDiffers_isSome (doc : Json) (k : String) (cached : Json) :
    (fieldDiffers doc k cached).isSome = (doc.at_ k).isSome := by
  unfold fieldDiffers
  cases doc.at_ k <;> simp

theorem orThen_eq_some_false (a b : Option Bool) :
    orThen a b = some false ↔ a = some false ∧ b = some false := by
  cases a with
  | none => simp [orThen]
  | some x => cases x <;> simp [orThen]

theorem orThen_isSome (a b : Option Bool) (ha : a.isSome = true) (hb : b.isSome = true) :
    (orThen a b).isSome = true := by
  cases a with
  | none => simp at ha
  | some x => cases x <;> simp [orThen, hb]

/-- The drift check finds nothing exactly when document and cached fields agree. -/
theorem driftChanged_eq_some_false (s : SettingsManager) :
    driftChanged s = some false ↔ Consistent s := by
  unfold driftChanged Consistent
  simp only [orThen_eq_some_false, fieldDiffers_eq_some_false]

theorem driftChanged_isSome (s : SettingsManager)
    (hf : ∀ k ∈ requiredFields, (s.m_app_settings.at_ k).isSome = true) :
    (driftChanged s).isSome = true := by
  have f1 := hf "Latest Release Date" (by decide)
  have f2 := hf "Block List" (by decide)
  have f3 := hf "Zip Reader" (by decide)
  have f4 := hf "Developer" (by decide)
  have f5 := hf "Cef Offsets" (by decide)
  unfold driftChanged
  refine orThen_isSome _ _ ?_ (orThen_isSome _ _ ?_ (orThen_isSome _ _ ?_
    (orThen_isSome _ _ ?_ ?_))) <;> rw [fieldDiffers_isSome] <;> assumption

theorem driftChanged_eq_some_true (s : SettingsManager)
    (hf : ∀ k ∈ requiredFields, (s.m_app_settings.at_ k).isSome = true) :
    driftChanged s = some true ↔ ¬ Consistent s := by
  rw [← driftChanged_eq_some_false]
  have := driftChanged_isSome s hf
  cases h : driftChanged s with
  | none => simp [h] at this
  | some b => cases b <;> simp

theorem assignAt_eq_setKey (j : Json) (k : String) (v : Json) (h : (j.at_ k).isSome = true) :
    j.assignAt k v = some (j.setKey k v) := by
  cases j with
  | object kvs =>
    simp only [Json.at_] at h
    simp [Json.assignAt, Json.setKey, h]
  | _ => simp [Json.at_] at h

theorem at_setKey_isSome (j : Json) (k k2 : String) (v : Json)
    (h : (j.at_ k2).isSome = true) : ((j.setKey k v).at_ k2).isSome = true := by
  by_cases hk : k2 = k
  · subst hk
    simp [at_setKey_self]
  · rw [at_setKey_ne j k k2 v hk]
    exact h

/-- On a document that holds the five fields the store of the cached values runs
to its end and leaves the synced document. -/
theorem storeCached_of_fields (s : SettingsManager)
    (hf : ∀ k ∈ requiredFields, (s.m_app_settings.at_ k).isSome = true) :
    storeCached s = ({ s with m_app_settings := syncedDocument s }, true) := by
  have f1 := hf "Latest Release Date" (by decide)
  have f2 := hf "Block List" (by decide)
  have f3 := hf "Zip Reader" (by decide)
  have f4 := hf "Developer" (by decide)
  have f5 := hf "Cef Offsets" (by decide)
  unfold storeCached syncedDocument
  rw [assignAt_eq_setKey _ _ _ f1]
  simp only []
  rw [assignAt_eq_setKey _ _ _ (at_setKey_isSome _ _ _ _ f2)]
  simp only []
  rw [assignAt_eq_setKey _ _ _ (at_setKey_isSome _ _ _ _ (at_setKey_isSome _ _ _ _ f3))]
  simp only []
  rw [assignAt_eq_setKey _ _ _
    (at_setKey_isSome _ _ _ _ (at_setKey_isSome _ _ _ _ (at_setKey_isSome _ _ _ _ f4)))]
  simp only []
  rw [assignAt_eq_setKey _ _ _ (at_setKey_isSome _ _ _ _
    (at_setKey_isSome _ _ _ _ (at_setKey_isSome _ _ _ _ (at_setKey_isSome _ _ _ _ f5))))]

/-- The five fields of the synced document are the cached values. -/
theorem syncedDocument_fields (s : SettingsManager) :
    (syncedDocument s).at_ "Latest Release Date" = some (Json.string s.m_latest_release_date) ∧
    (syncedDocument s).at_ "Block List" = some (jsonOfBlockList s.m_block_list) ∧
    (syncedDocument s).at_ "Zip Reader" = some s.m_zip_reader ∧
    (syncedDocument s).at_ "Developer" = some s.m_developer ∧
    (syncedDocument s).at_ "Cef Offsets" = some s.m_cef_offsets := by
  unfold syncedDocument
  refine ⟨?_, ?_, ?_, ?_, ?_⟩
  · rw [at_setKey_ne _ _ _ _ (by decide), at_setKey_ne _ _ _ _ (by decide),
      at_setKey_ne _ _ _ _ (by decide), at_setKey_ne _ _ _ _ (by decide), at_setKey_self]
  · rw [at_setKey_ne _ _ _ _ (by decide), at_setKey_ne _ _ _ _ (by decide),
      at_setKey_ne _ _ _ _ (by decide), at_setKey_self]
  · rw [at_setKey_ne _ _ _ _ (by decide), at_setKey_ne _ _ _ _ (by decide), at_setKey_self]
  · rw [at_setKey_ne _ _ _ _ (by decide), at_setKey_self]
  · rw [at_setKey_self]

theorem driftStep_of_drift (c : Codec) (w : Bool) (s : SettingsManager)
    (hf : ∀ k ∈ requiredFields, (s.m_app_settings.at_ k).isSome = true)
    (hd : ¬ Consistent s) :
    driftStep c w s =
      ⟨Outcome.ret (), { s with m_app_settings := syncedDocument s, m_settings_changed := true },
        Event.writeFile s.m_app_settings_file (c.dump (syncedDocument s) 2) ::
          (if w then [] else [Event.logError "Failed to open settings file: \x7b\x7d"])⟩ := by
  have hc := (driftChanged_eq_some_true s hf).mpr hd
  have hs := storeCached_of_fields { s with m_settings_changed := true } hf
  unfold driftStep
  simp only [hc, if_true, hs]
  cases w <;> rfl

theorem driftStep_of_consistent (c : Codec) (w : Bool) (s : SettingsManager)
    (hd : Consistent s) :
    driftStep c w s = ⟨Outcome.ret (), { s with m_settings_changed := false }, []⟩ := by
  have hc := (driftChanged_eq_some_false s).mpr hd
  unfold driftStep
  simp [hc]

/-- C18: on a document that holds the five fields, the drift step of a tick
writes the settings file exactly when one of the five fields differs from its
cached value.  When it writes, the five fields have first been set to the cached
values and the text written is `dump` of that document; a failed write adds one
error for the logger and the step still returns.  When nothing differs there is
no event at all and the document is unchanged.  The cached fields are never
touched by the step. -/
theorem driftStep_writes_iff_drift (c : Codec) (w : Bool) (s : SettingsManager)
    (hf : ∀ k ∈ requiredFields, (s.m_app_settings.at_ k).isSome = true) :
    (driftStep c w s).out = Outcome.ret () ∧
    ((driftStep c w s).events.filter Event.isWrite ≠ [] ↔ ¬ Consistent s) ∧
    (¬ Consistent s →
      (driftStep c w s).state =
        { s with m_app_settings := syncedDocument s, m_settings_changed := true } ∧
      Consistent (driftStep c w s).state ∧
      (driftStep c w s).events.filter Event.isWrite =
        [Event.writeFile s.m_app_settings_file
          (c.dump (driftStep c w s).state.m_app_settings 2)] ∧
      ((driftStep c w s).events.filter Event.isError).length = (if w then 0 else 1)) ∧
    (Consistent s →
      (driftStep c w s).events = [] ∧
      (driftStep c w s).state = { s with m_settings_changed := false }) := by
  by_cases hd : Consistent s
  · rw [driftStep_of_consistent c w s hd]
    exact ⟨rfl, by simp [hd], fun h => absurd hd h, fun _ => ⟨rfl, rfl⟩⟩
  · rw [driftStep_of_drift c w s hf hd]
    refine ⟨rfl, by simp [hd, Event.isWrite], fun _ => ⟨rfl, ?_, ?_, ?_⟩, fun h => absurd h hd⟩
    · exact syncedDocument_fields s
    · cases w <;> simp [Event.isWrite]
    · cases w <;> simp [Event.isError]

set_option maxRecDepth 20000 in
/-- C18 on the scenario of the spec: the cached block list was changed in
memory; the next drift step writes the document with the new list. -/
theorem driftStep_writes_iff_drift_witness :
    ((driftStep (sampleCodec Json.null) true driftedState).out = Outcome.ret () ∧
      ((driftStep (sampleCodec Json.null) true driftedState).events.filter Event.isWrite ≠ []
        ↔ ¬ Consistent driftedState)) ∧
    (driftStep (sampleCodec Json.null) true driftedState).events =
      [Event.writeFile "blockthespot_settings.json"
        (render (sampleDoc "2024-01-01" ["/a/", "/b/"]))] :=
  ⟨⟨(driftStep_writes_iff_drift (sampleCodec Json.null) true driftedState (by decide)).1,
    (driftStep_writes_iff_drift (sampleCodec Json.null) true driftedState (by decide)).2.1⟩,
    by decide⟩

/-! ## The loop of `Update`: properties -/

/-- With enough fuel the loop is left, after at most `k` rounds when `k` sleeps
reach the end of the window. -/
theorem UpdateLoop_terminates (c : Codec) (inp : Nat → TickInput) (extra : Nat → Nat)
    (end_time : Nat) :
    ∀ (fuel k i now : Nat) (s : SettingsManager), end_time ≤ now + pollSleep * k → k < fuel →
      ∃ r n, UpdateLoop c inp extra end_time fuel i now s = some (r, n) ∧ n ≤ k := by
  intro fuel
  induction fuel with
  | zero => intro k i now s _ hk; omega
  | succ fuel ih =>
    intro k i now s hend hk
    unfold UpdateLoop
    by_cases hlt : now < end_time
    · simp only [hlt, if_true]
      cases hout : (UpdateTick c (inp i) s).out with
      | raised =>
        refine ⟨_, 1, rfl, ?_⟩
        simp only [pollSleep] at hend
        omega
      | ret u =>
        simp only []
        have hk0 : 0 < k := by
          simp only [pollSleep] at hend
          omega
        obtain ⟨r, n, hr, hn⟩ := ih (k - 1) (i + 1) (now + pollSleep + extra i)
          (UpdateTick c (inp i) s).state
          (by simp only [pollSleep] at hend ⊢; omega) (by omega)
        rw [hr]
        exact ⟨_, n + 1, rfl, by omega⟩
    · simp only [hlt, if_false]
      exact ⟨_, 0, rfl, by omega⟩

/-- On a clock that advances by the sleeps only, a loop that is left normally
has run until the window was used up and no longer. -/
theorem UpdateLoop_count (c : Codec) (inp : Nat → TickInput) (extra : Nat → Nat)
    (end_time : Nat) (hextra : ∀ i, extra i = 0) :
    ∀ (fuel i now : Nat) (s : SettingsManager) (r : Run Unit) (n : Nat),
      UpdateLoop c inp extra end_time fuel i now s = some (r, n) → r.out = Outcome.ret () →
      end_time ≤ now + pollSleep * n ∧ (0 < n → now + pollSleep * (n - 1) < end_time) := by
  intro fuel
  induction fuel with
  | zero => intro i now s r n h _; simp [UpdateLoop] at h
  | succ fuel ih =>
    intro i now s r n h hret
    unfold UpdateLoop at h
    by_cases hlt : now < end_time
    · simp only [hlt, if_true] at h
      cases hout : (UpdateTick c (inp i) s).out with
      | raised =>
        simp only [hout, Option.some.injEq, Prod.mk.injEq] at h
        rw [← h.1, hout] at hret
        cases hret
      | ret u =>
        simp only [hout] at h
        cases hrec : UpdateLoop c inp extra end_time fuel (i + 1) (now + pollSleep + extra i)
            (UpdateTick c (inp i) s).state with
        | none => simp [hrec] at h
        | some p =>
          obtain ⟨r2, n2⟩ := p
          simp only [hrec, Option.some.injEq, Prod.mk.injEq] at h
          obtain ⟨hr, hn⟩ := h
          have hret2 : r2.out = Outcome.ret () := by rw [← hr] at hret; exact hret
          obtain ⟨h1, h2⟩ := ih _ _ _ _ _ hrec hret2
          rw [hextra i] at h1 h2
          subst hn
          simp only [pollSleep] at h1 h2 ⊢
          refine ⟨by omega, fun _ => ?_⟩
          by_cases hz : n2 = 0
          · subst hz; simpa using hlt
          · have := h2 (by omega)
            have e : n2 + 1 - 1 = (n2 - 1) + 1 := by omega
            rw [e]
            omega
    · simp only [hlt, if_false, Option.some.injEq, Prod.mk.injEq] at h
      rw [← h.2]
      exact ⟨by omega, fun h0 => absurd h0 (by omega)⟩

/-- C19, as amended: the window of `Update` is one minute.  With fuel for four
rounds or more the loop is left after at most three ticks, whatever time the
rounds take beyond their sleeps of 20 seconds; on a clock that advances by the
sleeps only, a loop that no exception ends runs exactly three ticks. -/
theorem Update_runs_three_ticks (c : Codec) (inp : Nat → TickInput) (extra : Nat → Nat)
    (fuel start : Nat) (s : SettingsManager) (hfuel : 4 ≤ fuel) :
    ∃ r n, Update c inp extra fuel start s = some (r, n) ∧ n ≤ 3 ∧
      ((∀ i, extra i = 0) → r.out = Outcome.ret () → n = 3) := by
  obtain ⟨r, n, hr, hn⟩ := UpdateLoop_terminates c inp extra (start + pollWindow) fuel 3 0 start s
    (by simp [pollWindow, pollSleep]) (by omega)
  refine ⟨r, n, hr, hn, fun hextra hret => ?_⟩
  obtain ⟨h1, _⟩ := UpdateLoop_count c inp extra (start + pollWindow) hextra fuel 0 start s r n
    hr hret
  simp only [pollWindow, pollSleep] at h1
  omega

/-- C19, as amended, on a concrete run with fuel for four rounds. -/
theorem Update_runs_three_ticks_witness :
    ∃ r n, Update (sampleCodec Json.null) (fun _ => offlineTick) (fun _ => 0) 4 0
        (sampleState "2024-01-01" ["/a/"]) = some (r, n) ∧ n ≤ 3 ∧
      ((∀ i, (fun _ : Nat => 0) i = 0) → r.out = Outcome.ret () → n = 3) :=
  Update_runs_three_ticks (sampleCodec Json.null) (fun _ => offlineTick) (fun _ => 0) 4 0
    (sampleState "2024-01-01" ["/a/"]) (by decide)

/-- C19, as stated, fails: on a clock that advances by the sleeps only, with
fuel for two hundred rounds and ticks that all return, the loop is left after
three ticks, not one hundred and eighty. -/
theorem Update_tick_count_counterexample :
    (Update (sampleCodec Json.null) (fun _ => offlineTick) (fun _ => 0) 200 0
      (sampleState "2024-01-01" ["/a/"])).map (fun p => (p.1.out, p.2)) =
      some (Outcome.ret (), 3) :=
  by decide

/-! ## Agreement of the document with the cached fields -/

theorem populate_consistent (s : SettingsManager) (evs : List Event)
    (h : (populate s evs).out = Outcome.ret true)
    (harr : ∃ xs, s.m_app_settings.at_ "Block List" = some (Json.array xs)) :
    Consistent (populate s evs).state := by
  rcases populate_cases s evs with ⟨s1, hp, _⟩ | ⟨date, blj, bl, zip, dev, cef, h1, h2, h3, h4, h5, h6, hp⟩
  · rw [hp] at h
    simp [retrieveFailed] at h
  · obtain ⟨⟨o1, o2, o3, hst⟩, _, _⟩ := deriveOffsets_frame (populated s date bl zip dev cef) evs
    obtain ⟨xs, hxs⟩ := harr
    rw [hxs] at h2
    have hblj : blj = Json.array xs := (Option.some.inj h2).symm
    subst hblj
    have hbl := pushBlockList_array_all xs bl h3
    rw [hp, hst]
    have hbl2 : s.m_app_settings.at_ "Block List" = some (jsonOfBlockList bl) := by
      rw [← hbl]
      exact hxs
    exact ⟨h1, hbl2, h4, h5, h6⟩

theorem Load_disk_consistent (c : Codec) (file : Option String) (s : SettingsManager)
    (h : (Load c file Json.null s).out = Outcome.ret true) :
    Consistent (Load c file Json.null s).state := by
  unfold Load at h ⊢
  simp only [Json.is_null, if_true] at h ⊢
  cases file with
  | none => simp at h
  | some buffer =>
    simp only [] at h ⊢
    cases hp : c.parse buffer with
    | none => simp [hp] at h
    | some doc =>
      simp only [hp] at h ⊢
      cases hv : (ValidateSettingsLog doc).1 with
      | false => simp [hv] at h
      | true =>
        simp only [hv, Bool.true_eq_false, if_false] at h ⊢
        exact populate_consistent _ _ h (ValidateSettings_fields doc hv).2.2

theorem Load_document_consistent (c : Codec) (file : Option String) (d : Json)
    (s : SettingsManager) (hval : ValidateSettings d = true)
    (h : (Load c file d s).out = Outcome.ret true) :
    Consistent (Load c file d s).state := by
  obtain ⟨hnull, _, harr⟩ := ValidateSettings_fields d hval
  rw [Load_of_not_null c file d s hnull] at h ⊢
  exact populate_consistent _ _ h harr

theorem Save_consistent (c : Codec) (w : Bool) (s : SettingsManager) :
    Consistent (Save c w s).state := by
  rw [(Save_state c w s).1]
  exact savedDocument_fields s

theorem assignAt_some (j j2 : Json) (k : String) (v : Json) (h : j.assignAt k v = some j2) :
    j2 = j.setKey k v := by
  cases j with
  | object kvs =>
    simp only [Json.assignAt] at h
    split_ifs at h
    simp only [Option.some.injEq] at h
    rw [← h]
    rfl
  | _ => simp [Json.assignAt] at h

/-- A store of the cached values that runs to its end leaves the synced
document. -/
theorem storeCached_true (s s2 : SettingsManager) (h : storeCached s = (s2, true)) :
    s2 = { s with m_app_settings := syncedDocument s } := by
  unfold storeCached at h
  cases h1 : s.m_app_settings.assignAt "Latest Release Date"
      (Json.string s.m_latest_release_date) with
  | none => simp [h1] at h
  | some d1 =>
    simp only [h1] at h
    cases h2 : d1.assignAt "Block List" (jsonOfBlockList s.m_block_list) with
    | none => simp [h2] at h
    | some d2 =>
      simp only [h2] at h
      cases h3 : d2.assignAt "Zip Reader" s.m_zip_reader with
      | none => simp [h3] at h
      | some d3 =>
        simp only [h3] at h
        cases h4 : d3.assignAt "Developer" s.m_developer with
        | none => simp [h4] at h
        | some d4 =>
          simp only [h4] at h
          cases h5 : d4.assignAt "Cef Offsets" s.m_cef_offsets with
          | none => simp [h5] at h
          | some d5 =>
            simp only [h5, Prod.mk.injEq, and_true] at h
            rw [← h, assignAt_some _ _ _ _ h5, assignAt_some _ _ _ _ h4,
              assignAt_some _ _ _ _ h3, assignAt_some _ _ _ _ h2, assignAt_some _ _ _ _ h1]
            rfl

theorem driftStep_consistent (c : Codec) (w : Bool) (s : SettingsManager)
    (h : (driftStep c w s).out = Outcome.ret ()) : Consistent (driftStep c w s).state := by
  unfold driftStep at h ⊢
  cases hd : driftChanged s with
  | none => simp [hd] at h
  | some changed =>
    cases changed with
    | false =>
      simp only [hd, Bool.false_eq_true, if_false]
      exact (driftChanged_eq_some_false s).mp hd
    | true =>
      simp only [hd, if_true] at h ⊢
      cases hs : storeCached { s with m_settings_changed := true } with
      | mk s2 ok =>
        cases ok with
        | false => simp [hs] at h
        | true =>
          have h2 := storeCached_true _ _ hs
          subst h2
          cases w <;> exact syncedDocument_fields { s with m_settings_changed := true }

/-- After a remote sync that returned true, document and cached fields agree, or
the sync found the remote document equal and changed nothing. -/
theorem UpdateSettingsFromServer_consistent (c : Codec) (http : Option String)
    (writeOk promptYes : Bool) (s : SettingsManager)
    (h : (UpdateSettingsFromServer c http writeOk promptYes s).out = Outcome.ret true) :
    Consistent (UpdateSettingsFromServer c http writeOk promptYes s).state ∨
    (UpdateSettingsFromServer c http writeOk promptYes s).state = s := by
  unfold UpdateSettingsFromServer at h ⊢
  cases http with
  | none => simp [syncCaught] at h
  | some text =>
    cases hp : c.parse text with
    | none => simp [hp, syncCaught] at h
    | some r =>
      simp only [hp] at h ⊢
      cases hv : (ValidateSettingsLog r).1 with
      | false => simp [hv] at h
      | true =>
        simp only [hv, Bool.true_eq_false, if_false] at h ⊢
        cases hc : CompareSettings r s.m_app_settings with
        | true => simp [hc]
        | false =>
          simp only [hc, if_true] at h ⊢
          cases hd : (r.at_ "Latest Release Date").bind Json.get_string with
          | none => simp [hd, syncCaught] at h
          | some date =>
            simp only [hd] at h ⊢
            obtain ⟨v, hv1, hv2⟩ := Option.bind_eq_some.mp hd
            rw [get_string_eq_some] at hv2
            subst hv2
            have hnull := (ValidateSettings_fields r hv).1
            cases hout : (Load c none r s).out with
            | raised => simp [hout, syncCaught] at h
            | ret b =>
              cases b with
              | false => simp [hout] at h
              | true =>
                have hcons := Load_document_consistent c none r s hv hout
                have hdoc : (Load c none r s).state.m_app_settings = r := by
                  rw [Load_of_not_null c none r s hnull, populate_m_app_settings]
                have hgoal : Consistent
                    { (Load c none r s).state with m_latest_release_date := date } := by
                  obtain ⟨_, c2, c3, c4, c5⟩ := hcons
                  refine ⟨?_, c2, c3, c4, c5⟩
                  show (Load c none r s).state.m_app_settings.at_ "Latest Release Date" = _
                  rw [hdoc]
                  exact hv1
                cases writeOk with
                | false => simp [hout] at h
                | true =>
                  cases hf : forcedUpdate s date <;> cases promptYes <;>
                    simp only [hout, hf, Bool.true_eq_false, Bool.false_eq_true, if_false,
                      if_true] <;> exact Or.inl hgoal

/-- C20, as amended: document and cached fields agree after every successful
load from disk, after every successful load of a supplied document that passes
`ValidateSettings`, after every save, after every drift step that returns, and
after every successful remote sync unless that sync found the remote document
equal and changed nothing (so a sync preserves the agreement and an adopting
sync establishes it).  From a state in agreement the drift step detects no
change, writes nothing and leaves the document as it is. -/
theorem document_agrees_with_cache (c : Codec) (s : SettingsManager) :
    (∀ file, (Load c file Json.null s).out = Outcome.ret true →
      Consistent (Load c file Json.null s).state) ∧
    (∀ file d, ValidateSettings d = true → (Load c file d s).out = Outcome.ret true →
      Consistent (Load c file d s).state) ∧
    (∀ w, Consistent (Save c w s).state) ∧
    (∀ w, (driftStep c w s).out = Outcome.ret () → Consistent (driftStep c w s).state) ∧
    (∀ http w p, (UpdateSettingsFromServer c http w p s).out = Outcome.ret true →
      Consistent (UpdateSettingsFromServer c http w p s).state ∨
      (UpdateSettingsFromServer c http w p s).state = s) ∧
    (∀ w, Consistent s →
      driftChanged s = some false ∧ (driftStep c w s).events = [] ∧
      (driftStep c w s).state.m_app_settings = s.m_app_settings) :=
  ⟨fun file h => Load_disk_consistent c file s h,
    fun file d hval h => Load_document_consistent c file d s hval h,
    fun w => Save_consistent c w s,
    fun w h => driftStep_consistent c w s h,
    fun http w p h => UpdateSettingsFromServer_consistent c http w p s h,
    fun w hc => ⟨(driftChanged_eq_some_false s).mpr hc,
      by rw [driftStep_of_consistent c w s hc], by rw [driftStep_of_consistent c w s hc]⟩⟩

/-- C20, as amended, on a concrete state in agreement: the drift step that
follows a save writes nothing. -/
theorem document_agrees_with_cache_witness :
    driftChanged (sampleState "2024-01-01" ["/a/"]) = some false ∧
    (driftStep (sampleCodec Json.null) true (sampleState "2024-01-01" ["/a/"])).events = [] ∧
    (driftStep (sampleCodec Json.null) true (sampleState "2024-01-01" ["/a/"])).state.m_app_settings
      = (sampleState "2024-01-01" ["/a/"]).m_app_settings :=
  (document_agrees_with_cache (sampleCodec Json.null) (sampleState "2024-01-01" ["/a/"])).2.2.2.2.2
    true ⟨rfl, rfl, rfl, rfl, rfl⟩

/-- C20, as stated, fails twice.  A remote sync that finds the remote document
equal returns true and leaves a cached release date that disagrees with the
document, so the drift check that follows detects a change and writes.  A load
of a supplied document whose `Block List` is an empty object returns true with
an empty cached block list, which is not the field of the document. -/
theorem agreement_after_sync_counterexample :
    (UpdateSettingsFromServer (sampleCodec (sampleDoc "2024-01-01" ["/a/"])) (some "")
      true true staleDateState).out = Outcome.ret true ∧
    driftChanged (UpdateSettingsFromServer (sampleCodec (sampleDoc "2024-01-01" ["/a/"]))
      (some "") true true staleDateState).state = some true ∧
    (driftStep (sampleCodec (sampleDoc "2024-01-01" ["/a/"])) true
      (UpdateSettingsFromServer (sampleCodec (sampleDoc "2024-01-01" ["/a/"]))
        (some "") true true staleDateState).state).events.filter Event.isWrite ≠ [] ∧
    (Load (sampleCodec Json.null) none objectBlockListDoc
      (sampleState "2024-01-01" ["/a/"])).out = Outcome.ret true ∧
    driftChanged (Load (sampleCodec Json.null) none objectBlockListDoc
      (sampleState "2024-01-01" ["/a/"])).state = some true :=
  by decide

end BlockTheSpot
